import Mathlib

/-!
# CoachShare — verification of the coach–athlete relationship model

Shallow embedding of the CoachShare backend's core business logic
(`userService.assignCoach` / `removeCoach`, `regimenService.assignRegimenToAthlete`,
`workoutLogService.createWorkoutLog` / `fetchWorkoutLogById` / `deleteOrphanedLogs`,
the workout-log controller's update/delete handlers, `achievementService
.calculateUserAchievements` and the pace calculator), together with proofs of
the specified properties.

Documents are modelled as Lean structures; nullable fields are `Option`;
Mongo id values are plain `String`s; JS numbers in the pace calculator are `ℚ`
(exact arithmetic); timestamps are milliseconds since the epoch as `Nat`.
Operations that can raise `AppError(status)` return `Except Err _` where
`Err` mirrors the status codes used by the source (400/403/404/500).
-/

namespace CoachShare

/-- Error taxonomy, mirroring the `AppError` status codes used in the source:
400 invalid input, 404 not found, 403 forbidden, 500 internal. -/
inductive Err where
  | invalidInput
  | notFound
  | forbidden
  | internal
deriving DecidableEq, Repr

/-- User roles (`role` field of the User schema): `admin`, `coach`, `athlete`. -/
inductive Role where
  | admin
  | coach
  | athlete
deriving DecidableEq, Repr

/-- A User document, with the fields the relationship model reads and writes:
`_id`, `role`, legacy `coachId`, `primaryCoachId`, the `coaches` array
(athlete side), the `regimens` array (athlete side) and the `athletes` array
(coach side). Nullable scalar fields are `Option String`. -/
structure User where
  id : String
  role : Role
  coachId : Option String
  primaryCoachId : Option String
  coaches : List String
  regimens : List String
  athletes : List String
deriving DecidableEq, Repr

/-- Result of `assignCoach`/`removeCoach`: the two (possibly mutated) documents
plus one flag per document recording whether a `save` was issued for it
(the `athleteNeedsSave`/`coachNeedsSave` resp. `athleteModified`/`coachModified`
booleans of the source). -/
structure LinkResult where
  athlete : User
  coach : User
  athleteSaved : Bool
  coachSaved : Bool
deriving DecidableEq, Repr

/-- Core mutation of `userService.assignCoach` (after the two `findById`
lookups succeeded): add `coach._id` to `athlete.coaches` if absent, set
`primaryCoachId` and legacy `coachId` if unset, add `athlete._id` to
`coach.athletes` if absent; a document is saved iff one of its fields changed. -/
def assignCoachDocs (athlete coach : User) : LinkResult :=
  let s1 := !athlete.coaches.contains coach.id
  let coaches1 := if athlete.coaches.contains coach.id then athlete.coaches
                  else athlete.coaches ++ [coach.id]
  let s2 := athlete.primaryCoachId.isNone
  let primary1 := match athlete.primaryCoachId with
                  | none => some coach.id
                  | some p => some p
  let s3 := athlete.coachId.isNone
  let coachId1 := match athlete.coachId with
                  | none => some coach.id
                  | some c => some c
  let c1 := !coach.athletes.contains athlete.id
  let athletes1 := if coach.athletes.contains athlete.id then coach.athletes
                   else coach.athletes ++ [athlete.id]
  { athlete := { athlete with coaches := coaches1, primaryCoachId := primary1,
                              coachId := coachId1 },
    coach := { coach with athletes := athletes1 },
    athleteSaved := s1 || s2 || s3,
    coachSaved := c1 }

/-- `userService.assignCoach athleteId coachId`: the `findById` results are the
two `Option User` arguments; a missing user or a wrong role raises 404, then
the document mutation `assignCoachDocs` runs. -/
def assignCoach (athlete? coach? : Option User) : Except Err LinkResult :=
  match athlete? with
  | none => Except.error Err.notFound
  | some athlete =>
    if athlete.role ≠ Role.athlete then Except.error Err.notFound
    else
      match coach? with
      | none => Except.error Err.notFound
      | some coach =>
        if coach.role ≠ Role.coach then Except.error Err.notFound
        else Except.ok (assignCoachDocs athlete coach)

/-- Core mutation of `userService.removeCoach` (after lookups): filter the
removed coach out of `athlete.coaches`; if that removed something and the
removed coach was primary, promote the first remaining coach (or clear);
sync the legacy `coachId` to the updated primary when it pointed at the
removed coach; afterwards a second check clears both scalar fields when the
(possibly already updated) `coachId` still equals the removed coach;
finally filter the athlete out of the coach's `athletes`. -/
def removeCoachDocs (athlete coach : User) : LinkResult :=
  let step1 :=
    if athlete.coaches ≠ [] then
      let newCoaches := athlete.coaches.filter (fun cId => cId ≠ coach.id)
      if newCoaches.length < athlete.coaches.length then
        let primary1 := if athlete.primaryCoachId = some coach.id then
                          newCoaches.head?
                        else athlete.primaryCoachId
        let coachId1 := if athlete.coachId = some coach.id then primary1
                        else athlete.coachId
        ({ athlete with coaches := newCoaches, primaryCoachId := primary1,
                        coachId := coachId1 }, true)
      else (athlete, false)
    else (athlete, false)
  let a1 := step1.1
  let step2 :=
    if a1.coachId = some coach.id then
      ({ a1 with coachId := none, primaryCoachId := none }, true)
    else (a1, step1.2)
  let newAthletes :=
    if coach.athletes ≠ [] then coach.athletes.filter (fun aId => aId ≠ athlete.id)
    else coach.athletes
  let coachModified := decide (newAthletes.length < coach.athletes.length)
  { athlete := step2.1,
    coach := { coach with athletes := newAthletes },
    athleteSaved := step2.2,
    coachSaved := coachModified }

/-- `userService.removeCoach athleteId coachIdToRemove`: lookups (404 on a
missing user or wrong role) followed by the document mutation
`removeCoachDocs`. -/
def removeCoach (athlete? coach? : Option User) : Except Err LinkResult :=
  match athlete? with
  | none => Except.error Err.notFound
  | some athlete =>
    if athlete.role ≠ Role.athlete then Except.error Err.notFound
    else
      match coach? with
      | none => Except.error Err.notFound
      | some coach =>
        if coach.role ≠ Role.coach then Except.error Err.notFound
        else Except.ok (removeCoachDocs athlete coach)

/-- Invariant I1 for one athlete–coach pair: the link is symmetric. -/
def invI1 (athlete coach : User) : Prop :=
  coach.id ∈ athlete.coaches ↔ athlete.id ∈ coach.athletes

/-- Invariant I2 for an athlete: a non-empty `coaches` set has its
`primaryCoachId` inside it; an empty one forces both scalar fields unset. -/
def invI2 (athlete : User) : Prop :=
  (athlete.coaches ≠ [] → ∃ p ∈ athlete.coaches, athlete.primaryCoachId = some p) ∧
  (athlete.coaches = [] → athlete.primaryCoachId = none ∧ athlete.coachId = none)

/-- Invariant I3 for an athlete: the legacy `coachId`, when set, equals
`primaryCoachId`. -/
def invI3 (athlete : User) : Prop :=
  ∀ c, athlete.coachId = some c → athlete.primaryCoachId = some c

instance (a c : User) : Decidable (invI1 a c) := by unfold invI1; infer_instance

instance (a : User) : Decidable (invI2 a) := by unfold invI2; infer_instance

instance (a : User) : Decidable (invI3 a) :=
  match h : a.coachId with
  | none => isTrue (by intro c hc; rw [h] at hc; cases hc)
  | some c =>
    if hp : a.primaryCoachId = some c then
      isTrue (by intro x hx; rw [h] at hx; cases hx; exact hp)
    else
      isFalse (by intro hall; exact hp (hall c h))

/-- A Regimen document: store-assigned `_id` (`mongoId` here), the
coach-created string UUID `id`, the owning coach `createdBy`, and the
`assignedTo` athlete-id array. -/
structure Regimen where
  mongoId : String
  id : String
  createdBy : String
  assignedTo : List String
deriving DecidableEq, Repr

/-- A WorkoutLog document with the fields the verified operations touch:
owner `athleteId`, the (nullable — `required: false` in the schema)
`regimenId` string, `dayId`, the `sharedWith` coach-id array and the
`completedAt` timestamp in milliseconds. -/
structure WorkoutLog where
  athleteId : String
  regimenId : Option String
  dayId : String
  sharedWith : List String
  completedAt : Nat
deriving DecidableEq, Repr

/-- Result of `regimenService.assignRegimenToAthlete`: both (possibly
mutated) documents plus the two `needsSave` flags of the source. -/
structure RegimenAssignResult where
  regimen : Regimen
  athlete : User
  regimenSaved : Bool
  athleteSaved : Bool
deriving DecidableEq, Repr

/-- `mongoose.Types.ObjectId.isValid` restricted to its main case: a
24-character hex string. -/
def isValidObjectId (s : String) : Bool :=
  s.length = 24 && s.toList.all fun c =>
    c.isDigit || ('a' ≤ c && c ≤ 'f') || ('A' ≤ c && c ≤ 'F')

/-- JS truthiness of a nullable string: `null`/`undefined` and `""` are falsy. -/
def jsTruthyStr : Option String → Bool
  | none => false
  | some s => s ≠ ""

/-- Input of `workoutLogService.createWorkoutLog` (`logData`): the fields the
service destructures and validates. Other pass-through fields
(`rating`, `notes`, …) are spread into the document unchanged and are
not modelled. -/
structure LogInput where
  regimenId : Option String
  dayId : Option String
  sharedWith : List String
  completedAt : Nat
deriving DecidableEq, Repr

/-- `workoutLogService.createWorkoutLog athleteId logData`: 400 when
`regimenId` or `dayId` is falsy; keeps only valid ObjectIds in `sharedWith`,
then filters out any id equal to the owning athlete's id, and persists the
document. -/
def createWorkoutLog (athleteId : String) (logData : LogInput) :
    Except Err WorkoutLog :=
  if !jsTruthyStr logData.regimenId || !jsTruthyStr logData.dayId then
    throw Err.invalidInput
  else
    let validSharedWith := logData.sharedWith.filter isValidObjectId
    let finalSharedWith := validSharedWith.filter fun i => i ≠ athleteId
    pure { athleteId := athleteId,
           regimenId := logData.regimenId,
           dayId := (logData.dayId).getD "",
           sharedWith := finalSharedWith,
           completedAt := logData.completedAt }

/-- `workoutLogService.fetchWorkoutLogById`: the `findById` + populate result
is passed as `found` (log together with its populated owner document; the
populate guarantees `owner.id = log.athleteId`). 404 when missing; the
requester may view the log when they are the owning athlete, or a coach
contained in the owner's `coaches` array; 403 otherwise. Id-format
validation (400) happens upstream of the modelled fragment. -/
def fetchWorkoutLogById (found : Option (WorkoutLog × User))
    (requestingUserId : String) (requestingUserRole : Role) :
    Except Err WorkoutLog :=
  match found with
  | none => throw Err.notFound
  | some (log, owner) =>
    if requestingUserRole = Role.athlete ∧ owner.id = requestingUserId then
      pure log
    else if requestingUserRole = Role.coach ∧ owner.coaches.contains requestingUserId then
      pure log
    else
      throw Err.forbidden

/-- The workout-log controller's `deleteWorkoutLog` handler: it authorizes
solely through `fetchWorkoutLogById` and then deletes. The plain
delete-by-id service call carries no further checks, so the handler's
outcome is exactly the fetch's outcome. -/
def deleteWorkoutLog (found : Option (WorkoutLog × User))
    (requestingUserId : String) (requestingUserRole : Role) :
    Except Err Unit := do
  let _ ← fetchWorkoutLogById found requestingUserId requestingUserRole
  pure ()

/-- The workout-log controller's `updateWorkoutLog` handler, restricted to the
`sharedWith` field of the update body (the other allowed fields are copied
through unchanged and do not interact with the verified property): fetch with
authorization, re-check that the requester is the owning athlete (403
otherwise), then keep only valid ObjectIds in the new `sharedWith` and drop
any id equal to `log.athleteId`. `workoutLogService.updateWorkoutLog` itself
(not under the verified sources; modelled from the spec) applies the filtered
patch to the stored document. -/
def updateWorkoutLog (found : Option (WorkoutLog × User))
    (requestingUserId : String) (requestingUserRole : Role)
    (sharedWithInput : Option (List String)) : Except Err WorkoutLog :=
  match found with
  | none => throw Err.notFound
  | some (log, owner) => do
    let _ ← fetchWorkoutLogById found requestingUserId requestingUserRole
    if requestingUserRole ≠ Role.athlete ∨ owner.id ≠ requestingUserId then
      throw Err.forbidden
    else
      match sharedWithInput with
      | some sw =>
        pure { log with
               sharedWith := (sw.filter isValidObjectId).filter
                 fun i => i ≠ owner.id }
      | none => pure log

/-- Steps 1–3 of `workoutLogService.deleteOrphanedLogs`: the distinct
non-null `regimenId` values referenced by the logs
(`WorkoutLog.distinct('regimenId')` followed by the null filter) that match
no existing regimen's `_id`. -/
def orphanedIds (logs : List WorkoutLog) (regimens : List Regimen) : List String :=
  ((logs.map fun l => l.regimenId).dedup.filterMap fun x => x).filter
    fun i => !(regimens.map fun r => r.mongoId).contains i

/-- `workoutLogService.deleteOrphanedLogs` over an explicit store state:
compute the orphaned regimen-id set (`orphanedIds`); when empty return 0
without deleting; otherwise delete every log whose `regimenId` is in the
orphaned set (`deleteMany({regimenId: {$in: orphanedRegimenIds}})` — a log
with a null `regimenId` matches no `$in` clause). Returns the remaining logs
and the deleted count. -/
def deleteOrphanedLogs (logs : List WorkoutLog) (regimens : List Regimen) :
    List WorkoutLog × Nat :=
  if orphanedIds logs regimens = [] then (logs, 0)
  else
    let isOrphan : WorkoutLog → Bool := fun l =>
      match l.regimenId with
      | some r => (orphanedIds logs regimens).contains r
      | none => false
    ((logs.filter fun l => !isOrphan l), (logs.filter isOrphan).length)

/-- `regimenService.assignRegimenToAthlete`: the regimen lookup result is
`regimen?`; 404 when missing, 403 unless `createdBy` equals the requesting
coach. The athlete lookup `findOne({_id, role: 'athlete',
coaches: requestingCoachId})` is modelled by filtering the candidate athlete
document with that predicate; 404 when it does not match. Then each side's
id is pushed onto the other document if absent, and a document is saved iff
it changed. Id-format validation (400) happens upstream of the modelled
fragment. -/
def assignRegimenToAthlete (regimen? : Option Regimen) (athlete? : Option User)
    (requestingCoachId : String) : Except Err RegimenAssignResult :=
  match regimen? with
  | none => Except.error Err.notFound
  | some regimen =>
    if regimen.createdBy ≠ requestingCoachId then
      Except.error Err.forbidden
    else
      match athlete?.bind fun u =>
          if u.role = Role.athlete && u.coaches.contains requestingCoachId then
            some u
          else none with
      | none => Except.error Err.notFound
      | some athlete =>
        let rSave := !regimen.assignedTo.contains athlete.id
        let regimen1 := if regimen.assignedTo.contains athlete.id then regimen
                        else { regimen with assignedTo := regimen.assignedTo ++ [athlete.id] }
        let aSave := !athlete.regimens.contains regimen.mongoId
        let athlete1 := if athlete.regimens.contains regimen.mongoId then athlete
                        else { athlete with regimens := athlete.regimens ++ [regimen.mongoId] }
        Except.ok { regimen := regimen1, athlete := athlete1,
                    regimenSaved := rSave, athleteSaved := aSave }

/-- One entry of the `ALL_ACHIEVEMENTS` catalog of `achievementService`. -/
structure AchievementDef where
  id : String
  title : String
  description : String
  iconName : String
deriving DecidableEq, Repr

/-- The fixed `ALL_ACHIEVEMENTS` catalog. -/
def firstWorkoutDef : AchievementDef :=
  { id := "first-workout", title := "First Step",
    description := "Completed your first workout!", iconName := "Award" }

/-- `milestone-10` catalog entry. -/
def milestone10Def : AchievementDef :=
  { id := "milestone-10", title := "Workout Warrior (10)",
    description := "Completed 10 workouts.", iconName := "Star" }

/-- `milestone-25` catalog entry. -/
def milestone25Def : AchievementDef :=
  { id := "milestone-25", title := "Workout Pro (25)",
    description := "Completed 25 workouts.", iconName := "TrendingUp" }

/-- `consistent-week` catalog entry. -/
def consistentWeekDef : AchievementDef :=
  { id := "consistent-week", title := "Consistent Week",
    description := "Completed workouts on 3+ days in a week.", iconName := "Calendar" }

/-- The `ALL_ACHIEVEMENTS` list as written in the source. -/
def ALL_ACHIEVEMENTS : List AchievementDef :=
  [firstWorkoutDef, milestone10Def, milestone25Def, consistentWeekDef]

/-- An earned achievement as returned by `calculateUserAchievements`:
the catalog entry spread together with `achievedDate` (milliseconds) and
the final `achieved: true` marker. -/
structure EarnedAchievement where
  id : String
  title : String
  description : String
  iconName : String
  achievedDate : Nat
  achieved : Bool
deriving DecidableEq, Repr

/-- Build an earned entry from a catalog entry, as the source's
`{ ...ALL_ACHIEVEMENTS.find(a => a.id === x), achievedDate }` (the lookup on
the literal catalog always succeeds) followed by the final
`{ ...ach, achieved: true }` map. -/
def mkEarned (d : AchievementDef) (date : Nat) : EarnedAchievement :=
  { id := d.id, title := d.title, description := d.description,
    iconName := d.iconName, achievedDate := date, achieved := true }

/-- One day in milliseconds (`24 * 60 * 60 * 1000`). -/
def dayMs : Nat := 86400000

/-- End of the 7-day window anchored at `t`:
`new Date(windowStart.getTime() + 6 * 24 * 60 * 60 * 1000)`. -/
def windowEnd (t : Nat) : Nat := t + 6 * dayMs

/-- The calendar day of a timestamp (`date.toDateString()` dedup key,
modelled as the UTC day index). -/
def calDay (t : Nat) : Nat := t / dayMs

/-- Number of distinct calendar days among the workouts falling inside the
7-day window `[t, t + 6 days]` — the `uniqueDaysInWindow` set of the source
under the intended timestamp decode (valid epoch-millisecond dates). The
program actually feeds the window test `parseISO(String(completedAt))`
values, which are Invalid Dates; see `uniqueDaysInWindowJs` for that
faithful variant, under which no workout ever falls inside a window. -/
def uniqueDaysInWindow (dates : List Nat) (t : Nat) : Nat :=
  (((dates.filter fun d => decide (t ≤ d) && decide (d ≤ windowEnd t)).map calDay).dedup).length

/-- First index `i` with `s ≤ i < s + fuel` satisfying `p` — the shape of the
source's `for` loop with `break` on first success. -/
def findFirst (p : Nat → Bool) (s : Nat) : Nat → Option Nat
  | 0 => none
  | fuel + 1 => if p s then some s else findFirst p (s + 1) fuel

/-- The `consistent-week` scan of `calculateUserAchievements` under the
intended timestamp decode: try anchors `i = 0 … dates.length - 3` in order
and return the end of the first 7-day window containing workouts on 3 or
more distinct calendar days. The program's actual scan input is the
`workoutDates` array of Invalid Dates; `consistentWeekDateJs` is that
faithful variant and provably never succeeds. -/
def consistentWeekDate (dates : List Nat) : Option Nat :=
  (findFirst (fun i => decide (3 ≤ uniqueDaysInWindow dates (dates.getD i 0)))
      0 (dates.length - 2)).map
    fun i => windowEnd (dates.getD i 0)

/-- `achievementService.calculateUserAchievements`, as a function of the
athlete's completion timestamps (the `completedAt` values returned by the
store, sorted ascending): empty on no logs, then the four fixed badge checks
pushed in source order. The `consistent-week` branch uses the
intended-decode scan `consistentWeekDate`; the scan the program actually
performs (`consistentWeekDateJs` over `workoutDates`) never succeeds, so the
program emits a subset of this evaluator's output. -/
def calculateUserAchievements (logs : List Nat) : List EarnedAchievement :=
  if logs.length = 0 then []
  else
    (if 1 ≤ logs.length then [mkEarned firstWorkoutDef (logs.getD 0 0)] else []) ++
    (if 10 ≤ logs.length then [mkEarned milestone10Def (logs.getD 9 0)] else []) ++
    (if 25 ≤ logs.length then [mkEarned milestone25Def (logs.getD 24 0)] else []) ++
    (match consistentWeekDate logs with
     | some d => [mkEarned consistentWeekDef d]
     | none => [])

/-- A JS `Date` time value: a valid epoch-millisecond timestamp, or the
Invalid Date (`NaN` time value) produced by failed parsing. -/
inductive JsDate where
  | valid (ms : Nat)
  | invalid
deriving DecidableEq, Repr

/-- `parseISO(String(d))` as the `consistent-week` scan applies it to each
`completedAt`: `completedAt` is a `Date` in the WorkoutLog schema, so
`String(...)` renders it in the `Date.prototype.toString` form
(`"Sat Oct 10 2026 13:00:00 GMT+0000 …"`), which is not ISO-8601, and
date-fns `parseISO` returns the Invalid Date for every non-ISO input —
hence the result is the Invalid Date for every input `Date`. -/
def parseISOStringOfDate (d : JsDate) : JsDate :=
  match d with
  | JsDate.valid _ => JsDate.invalid
  | JsDate.invalid => JsDate.invalid

/-- The `workoutDates` array exactly as the source builds it:
`logs.map(log => parseISO(String(log.completedAt)))`. -/
def workoutDates (logs : List Nat) : List JsDate :=
  logs.map fun t => parseISOStringOfDate (JsDate.valid t)

/-- JS `<=` on `Date` values: a comparison involving the Invalid Date
(`NaN` time value) is always false. -/
def jsDateLe : JsDate → JsDate → Bool
  | JsDate.valid a, JsDate.valid b => a ≤ b
  | _, _ => false

/-- `new Date(windowStart.getTime() + 6 * 24 * 60 * 60 * 1000)` on a `Date`
value: `NaN + x` is `NaN`, so the Invalid Date stays invalid. -/
def jsWindowEnd : JsDate → JsDate
  | JsDate.valid t => JsDate.valid (windowEnd t)
  | JsDate.invalid => JsDate.invalid

/-- The `toDateString()` dedup key of a `Date` value: the calendar day for a
valid date, one shared key (`"Invalid Date"`) for invalid ones. -/
def jsDateDay : JsDate → Option Nat
  | JsDate.valid t => some (calDay t)
  | JsDate.invalid => none

/-- The source's `uniqueDaysInWindow` set over actual `Date` values:
distinct `toDateString()` keys among the workout dates falling inside
`[windowStart, windowStart + 6 days]` under JS `Date` comparison. -/
def uniqueDaysInWindowJs (dates : List JsDate) (start : JsDate) : Nat :=
  (((dates.filter fun d => jsDateLe start d && jsDateLe d (jsWindowEnd start)).map
    jsDateDay).dedup).length

/-- The `consistent-week` scan exactly as the program runs it: over the
`workoutDates` array of `Date` values (which are all Invalid Dates, see
`parseISOStringOfDate`), trying anchors `i = 0 … length - 3` in order and
returning the window end of the first qualifying anchor. -/
def consistentWeekDateJs (dates : List JsDate) : Option JsDate :=
  (findFirst
      (fun i => decide (3 ≤ uniqueDaysInWindowJs dates (dates.getD i JsDate.invalid)))
      0 (dates.length - 2)).map
    fun i => jsWindowEnd (dates.getD i JsDate.invalid)

/-- `String.prototype.split` with a single-character separator, over the
string's character data (`"a:b" → ["a","b"]`, `"" → [""]`). -/
def splitOnChar (sep : Char) : List Char → List (List Char)
  | [] => [[]]
  | c :: cs =>
    let r := splitOnChar sep cs
    if c = sep then [] :: r
    else
      match r with
      | [] => [[c]]
      | h :: t => (c :: h) :: t

/-- `String.prototype.trim`, over the string's character data. -/
def trimChars (l : List Char) : List Char :=
  ((l.dropWhile Char.isWhitespace).reverse.dropWhile Char.isWhitespace).reverse

/-- Decimal value of a digit string. -/
def digitsVal (l : List Char) : Nat :=
  l.foldl (fun acc c => acc * 10 + (c.toNat - 48)) 0

/-- `parseFloat` restricted to plain decimal literals — the `MM`, `SS.ms` and
`SS` fragments the pace endpoint accepts — over the string's character data.
Returns `none` where `parseFloat` returns `NaN` on such fragments
(empty / non-numeric). Signs, exponents and trailing garbage are outside the
modelled fragment. -/
def parseDecimalChars (l : List Char) : Option ℚ :=
  match splitOnChar '.' l with
  | [intPart] =>
    if intPart ≠ [] ∧ intPart.all Char.isDigit then
      some ((digitsVal intPart : ℚ))
    else none
  | [intPart, fracPart] =>
    if (intPart ≠ [] ∨ fracPart ≠ []) ∧ intPart.all Char.isDigit ∧
        fracPart.all Char.isDigit then
      some ((digitsVal intPart : ℚ) +
        (digitsVal fracPart : ℚ) / ((10 : ℚ) ^ fracPart.length))
    else none
  | _ => none

/-- Input of the pace calculator's target time: a bare number of seconds or a
string (`MM:SS.ms` / `SS.ms`). -/
inductive TimeInput where
  | num (seconds : ℚ)
  | str (s : String)
deriving DecidableEq, Repr

/-- `parseTimeToSeconds`: a non-negative number passes through; a string is
trimmed, rejected when empty, split at `:` into exactly two parts parsed as
minutes and seconds (`0 ≤ minutes`, `0 ≤ seconds < 60`), else parsed as bare
seconds. 400 on every failure. -/
def parseTimeToSeconds (timeInput : TimeInput) : Except Err ℚ :=
  match timeInput with
  | TimeInput.num q => if q < 0 then throw Err.invalidInput else pure q
  | TimeInput.str raw =>
    let timeString := trimChars raw.data
    if timeString = [] then throw Err.invalidInput
    else if timeString.contains ':' then
      match splitOnChar ':' timeString with
      | [p1, p2] =>
        match parseDecimalChars p1, parseDecimalChars p2 with
        | some minutes, some seconds =>
          if minutes < 0 ∨ seconds < 0 ∨ 60 ≤ seconds then
            throw Err.invalidInput
          else pure (minutes * 60 + seconds)
        | _, _ => throw Err.invalidInput
      | _ => throw Err.invalidInput
    else
      match parseDecimalChars timeString with
      | some seconds =>
        if seconds < 0 then throw Err.invalidInput else pure seconds
      | none => throw Err.invalidInput

/-- Two-digit zero-padded decimal rendering of `k < 100`. -/
def pad2 (k : Nat) : String :=
  if k < 10 then "0" ++ toString k else toString k

/-- `formatSecondsToTime`: `toFixed(2)` — round to the nearest hundredth,
ties towards the larger value, rendered with exactly two decimals; negative
input yields `"N/A"`. -/
def formatSecondsToTime (totalSeconds : ℚ) : String :=
  if totalSeconds < 0 then "N/A"
  else
    let n := (Int.floor (totalSeconds * 100 + 1 / 2)).toNat
    toString (n / 100) ++ "." ++ pad2 (n % 100)

/-- Number of positive multiples of 50 strictly below `total` — the number of
iterations of the source's `for (let d = 50; d < total; d += 50)` loop. -/
def segCount (total : ℚ) : Nat := (Int.ceil (total / 50) - 1).toNat

/-- `generateStandardSegments`: every multiple of 50 strictly below the total
distance, then the total distance itself. The loop emits the multiples in
increasing order and the total exceeds them all, so the source's
`Set` + sort leaves exactly this list. -/
def generateStandardSegments (totalDistance : ℚ) : List ℚ :=
  ((List.range (segCount totalDistance)).map fun k : ℕ => ((k : ℚ) + 1) * 50) ++
    [totalDistance]

/-- `calculatePace totalDistance targetTimeString effortPercentage`:
validation chain (positive distance, effort in (0, 100], parseable positive
target time, positive finite training pace — the last re-check can never fire
over exact arithmetic), then one `{distance, time}` row per generated
segment with `time = distance / trainingPace` formatted to two decimals. -/
def calculatePace (totalDistance : ℚ) (targetTimeString : TimeInput)
    (effortPercentage : ℚ) : Except Err (List (ℚ × String)) := do
  if totalDistance ≤ 0 then throw Err.invalidInput
  if effortPercentage ≤ 0 ∨ 100 < effortPercentage then throw Err.invalidInput
  let targetTimeInSeconds ← parseTimeToSeconds targetTimeString
  if targetTimeInSeconds ≤ 0 then throw Err.invalidInput
  let targetPaceMS := totalDistance / targetTimeInSeconds
  let trainingPaceMS := targetPaceMS * (effortPercentage / 100)
  if trainingPaceMS ≤ 0 then throw Err.invalidInput
  let generatedSegmentDistances := generateStandardSegments totalDistance
  pure (generatedSegmentDistances.map fun segmentDistance =>
    (segmentDistance, formatSecondsToTime (segmentDistance / trainingPaceMS)))

/-- An athlete linked to coach `"c"` per I1 but with `primaryCoachId` and
legacy `coachId` unset — the state refuting C2 as stated. -/
def athleteNoPrimary : User :=
  { id := "a", role := Role.athlete, coachId := none, primaryCoachId := none,
    coaches := ["c"], regimens := [], athletes := [] }

/-- Coach `"c"` already listing athlete `"a"`. -/
def coachC : User :=
  { id := "c", role := Role.coach, coachId := none, primaryCoachId := none,
    coaches := [], regimens := [], athletes := ["a"] }

/-- An athlete with primary coach `"c"` and a second coach `"d"`. -/
def athleteTwoCoaches : User :=
  { id := "a", role := Role.athlete, coachId := some "c",
    primaryCoachId := some "c", coaches := ["c", "d"], regimens := [],
    athletes := [] }

/-- Coach `"c"` listing athlete `"a"`, used when unlinking. -/
def coachCWithA : User :=
  { id := "c", role := Role.coach, coachId := none, primaryCoachId := none,
    coaches := [], regimens := [], athletes := ["a"] }

/-- Result of removing coach `"c"` from `athleteTwoCoaches`: coach `"d"` is
promoted to primary and mirrored into the legacy field. -/
def removedPrimaryResult : LinkResult :=
  { athlete := { id := "a", role := Role.athlete, coachId := some "d",
                 primaryCoachId := some "d", coaches := ["d"], regimens := [],
                 athletes := [] },
    coach := { id := "c", role := Role.coach, coachId := none,
               primaryCoachId := none, coaches := [], regimens := [],
               athletes := [] },
    athleteSaved := true, coachSaved := true }

/-- An athlete whose `primaryCoachId` is set to `"p"` but whose legacy
`coachId` is unset — the state refuting C3 for `linkCoachAthlete`. -/
def athleteLegacyUnset : User :=
  { id := "a", role := Role.athlete, coachId := none, primaryCoachId := some "p",
    coaches := ["p"], regimens := [], athletes := [] }

/-- A fresh coach `"c"` with no athletes. -/
def coachNew : User :=
  { id := "c", role := Role.coach, coachId := none, primaryCoachId := none,
    coaches := [], regimens := [], athletes := [] }

/-! ## Monad plumbing lemmas for `Except Err` -/

/-- Binding an error short-circuits. -/
theorem except_bind_error {α β : Type} (e : Err) (f : α → Except Err β) :
    (Except.error e >>= f) = Except.error e := rfl

/-- Binding a success applies the continuation. -/
theorem except_bind_ok {α β : Type} (a : α) (f : α → Except Err β) :
    (Except.ok a >>= f) = f a := rfl

/-- `throw` is `Except.error`. -/
theorem except_throw {α : Type} (e : Err) :
    (throw e : Except Err α) = Except.error e := rfl

/-- `pure` is `Except.ok`. -/
theorem except_pure {α : Type} (a : α) :
    (pure a : Except Err α) = Except.ok a := rfl

/-! ## Claim C5 — self-share exclusion (invariant I6) -/

/-- C5: for every WorkoutLog created via `createWorkoutLog` or updated via the
workout-log update operation with a `sharedWith` input containing the owning
athlete's id, the persisted `sharedWith` never contains that athlete's id. -/
theorem c5_self_share_exclusion :
    (∀ (athleteId : String) (logData : LogInput) (log : WorkoutLog),
        athleteId ∈ logData.sharedWith →
        createWorkoutLog athleteId logData = Except.ok log →
        athleteId ∉ log.sharedWith) ∧
    (∀ (log : WorkoutLog) (owner : User) (uid : String) (role : Role)
        (sw : List String) (log1 : WorkoutLog),
        owner.id = log.athleteId →
        log.athleteId ∈ sw →
        updateWorkoutLog (some (log, owner)) uid role (some sw) = Except.ok log1 →
        log.athleteId ∉ log1.sharedWith) := by
  constructor
  · intro athleteId logData log _ hok
    unfold createWorkoutLog at hok
    split at hok
    · exact absurd hok (by simp)
    · simp only [pure, Except.pure, Except.ok.injEq] at hok
      subst hok
      simp [List.mem_filter]
  · intro log owner uid role sw log1 hown _ hok
    have hupd : updateWorkoutLog (some (log, owner)) uid role (some sw) =
        (fetchWorkoutLogById (some (log, owner)) uid role) >>= fun _ =>
          if role ≠ Role.athlete ∨ owner.id ≠ uid then Except.error Err.forbidden
          else Except.ok { log with sharedWith :=
            (sw.filter isValidObjectId).filter fun i => i ≠ owner.id } := by
      unfold updateWorkoutLog
      rfl
    rw [hupd] at hok
    cases hf : fetchWorkoutLogById (some (log, owner)) uid role with
    | error e =>
      rw [hf, except_bind_error] at hok
      cases hok
    | ok l =>
      rw [hf, except_bind_ok] at hok
      split at hok
      · cases hok
      · injection hok with hok
        subst hok
        simp [List.mem_filter, hown]

/-- Closed instance of `c5_self_share_exclusion`: with owner id
`"aaaaaaaaaaaaaaaaaaaaaaaa"` appearing in the `sharedWith` input, neither the
created nor the updated persisted document contains it. -/
theorem c5_self_share_exclusion_witness :
    ("aaaaaaaaaaaaaaaaaaaaaaaa" ∉
      ({ athleteId := "aaaaaaaaaaaaaaaaaaaaaaaa", regimenId := some "R1",
         dayId := "d1", sharedWith := ["bbbbbbbbbbbbbbbbbbbbbbbb"],
         completedAt := 5 } : WorkoutLog).sharedWith) ∧
    ("aaaaaaaaaaaaaaaaaaaaaaaa" ∉
      ({ athleteId := "aaaaaaaaaaaaaaaaaaaaaaaa", regimenId := some "R1",
         dayId := "d1", sharedWith := ["bbbbbbbbbbbbbbbbbbbbbbbb"],
         completedAt := 5 } : WorkoutLog).sharedWith) :=
  ⟨c5_self_share_exclusion.1 "aaaaaaaaaaaaaaaaaaaaaaaa"
      { regimenId := some "R1", dayId := some "d1",
        sharedWith := ["aaaaaaaaaaaaaaaaaaaaaaaa", "bbbbbbbbbbbbbbbbbbbbbbbb"],
        completedAt := 5 } _ (by decide) (by rfl),
   c5_self_share_exclusion.2
      { athleteId := "aaaaaaaaaaaaaaaaaaaaaaaa", regimenId := some "R1",
        dayId := "d1", sharedWith := [], completedAt := 5 }
      { id := "aaaaaaaaaaaaaaaaaaaaaaaa", role := Role.athlete, coachId := none,
        primaryCoachId := none, coaches := [], regimens := [], athletes := [] }
      "aaaaaaaaaaaaaaaaaaaaaaaa" Role.athlete
      ["aaaaaaaaaaaaaaaaaaaaaaaa", "bbbbbbbbbbbbbbbbbbbbbbbb"] _
      (by decide) (by decide) (by rfl)⟩

/-! ## Claim C10 — delete authorization follows view authorization -/

/-- C10: `deleteWorkoutLog` succeeds for any requester that
`fetchWorkoutLogById` authorizes to view the log — in particular every coach
contained in the owning athlete's `coaches` set, regardless of the log's
`sharedWith` — and raises Forbidden exactly when the requester is neither the
owning athlete nor such a coach. -/
theorem c10_delete_follows_view_authorization :
    ∀ (log : WorkoutLog) (owner : User) (rid : String) (role : Role),
      owner.id = log.athleteId →
      ((deleteWorkoutLog (some (log, owner)) rid role = Except.ok () ↔
          ∃ l, fetchWorkoutLogById (some (log, owner)) rid role = Except.ok l) ∧
       (role = Role.coach → rid ∈ owner.coaches →
          deleteWorkoutLog (some (log, owner)) rid role = Except.ok ()) ∧
       (deleteWorkoutLog (some (log, owner)) rid role = Except.error Err.forbidden ↔
          ¬ ((role = Role.athlete ∧ rid = owner.id) ∨
             (role = Role.coach ∧ rid ∈ owner.coaches))) ∧
       (∀ sw, deleteWorkoutLog (some ({ log with sharedWith := sw }, owner)) rid role =
          deleteWorkoutLog (some (log, owner)) rid role)) := by
  intro log owner rid role _
  have hfetch : ∀ lg : WorkoutLog,
      fetchWorkoutLogById (some (lg, owner)) rid role =
        if role = Role.athlete ∧ owner.id = rid then Except.ok lg
        else if role = Role.coach ∧ owner.coaches.contains rid then Except.ok lg
        else Except.error Err.forbidden := by
    intro lg
    unfold fetchWorkoutLogById
    rfl
  have hdel : ∀ lg : WorkoutLog,
      deleteWorkoutLog (some (lg, owner)) rid role =
        if role = Role.athlete ∧ owner.id = rid then Except.ok ()
        else if role = Role.coach ∧ owner.coaches.contains rid then Except.ok ()
        else Except.error Err.forbidden := by
    intro lg
    unfold deleteWorkoutLog
    rw [hfetch lg]
    by_cases h1 : role = Role.athlete ∧ owner.id = rid
    · rw [if_pos h1, if_pos h1, except_bind_ok, except_pure]
    · rw [if_neg h1, if_neg h1]
      by_cases h2 : role = Role.coach ∧ owner.coaches.contains rid
      · rw [if_pos h2, if_pos h2, except_bind_ok, except_pure]
      · rw [if_neg h2, if_neg h2, except_bind_error]
  refine ⟨?_, ?_, ?_, ?_⟩
  · rw [hdel log, hfetch log]
    by_cases h1 : role = Role.athlete ∧ owner.id = rid
    · rw [if_pos h1, if_pos h1]
      simp
    · rw [if_neg h1, if_neg h1]
      by_cases h2 : role = Role.coach ∧ owner.coaches.contains rid
      · rw [if_pos h2, if_pos h2]
        simp
      · rw [if_neg h2, if_neg h2]
        simp
  · intro hrole hmem
    rw [hdel log]
    have hc : (owner.coaches.contains rid) = true := List.elem_eq_true_of_mem hmem
    by_cases h1 : role = Role.athlete ∧ owner.id = rid
    · rw [if_pos h1]
    · rw [if_neg h1, if_pos ⟨hrole, hc⟩]
  · rw [hdel log]
    by_cases h1 : role = Role.athlete ∧ owner.id = rid
    · rw [if_pos h1]
      constructor
      · intro h; cases h
      · intro hn; exact absurd (Or.inl ⟨h1.1, h1.2.symm⟩) hn
    · rw [if_neg h1]
      by_cases h2 : role = Role.coach ∧ owner.coaches.contains rid
      · rw [if_pos h2]
        constructor
        · intro h; cases h
        · intro hn
          exact absurd (Or.inr ⟨h2.1, List.mem_of_elem_eq_true h2.2⟩) hn
      · rw [if_neg h2]
        constructor
        · intro _ hor
          rcases hor with ⟨hr, he⟩ | ⟨hr, hm⟩
          · exact h1 ⟨hr, he.symm⟩
          · exact h2 ⟨hr, List.elem_eq_true_of_mem hm⟩
        · intro _; rfl
  · intro sw
    rw [hdel log, hdel { log with sharedWith := sw }]

/-- Closed instance of `c10_delete_follows_view_authorization`: coach `"c"`
is in the owner's `coaches` set and may delete the log even though
`sharedWith` is empty. -/
theorem c10_delete_follows_view_authorization_witness :
    deleteWorkoutLog
      (some ({ athleteId := "a", regimenId := some "R1", dayId := "d1",
               sharedWith := [], completedAt := 0 },
             { id := "a", role := Role.athlete, coachId := some "c",
               primaryCoachId := some "c", coaches := ["c"], regimens := [],
               athletes := [] }))
      "c" Role.coach = Except.ok () :=
  (c10_delete_follows_view_authorization
      { athleteId := "a", regimenId := some "R1", dayId := "d1",
        sharedWith := [], completedAt := 0 }
      { id := "a", role := Role.athlete, coachId := some "c",
        primaryCoachId := some "c", coaches := ["c"], regimens := [],
        athletes := [] }
      "c" Role.coach (by decide)).2.1 (by decide) (by decide)

/-! ## Claim C4 — assignRegimenToAthlete error conditions and idempotence -/

/-- Unfolding of `assignRegimenToAthlete` on a found regimen. -/
theorem assignRegimen_some_eq (rg : Regimen) (u? : Option User) (c : String) :
    assignRegimenToAthlete (some rg) u? c =
      if rg.createdBy ≠ c then Except.error Err.forbidden
      else
        match u?.bind fun u =>
            if u.role = Role.athlete && u.coaches.contains c then some u
            else none with
        | none => Except.error Err.notFound
        | some athlete =>
          Except.ok { regimen := if rg.assignedTo.contains athlete.id then rg
                                 else { rg with assignedTo := rg.assignedTo ++ [athlete.id] },
                      athlete := if athlete.regimens.contains rg.mongoId then athlete
                                 else { athlete with regimens := athlete.regimens ++ [rg.mongoId] },
                      regimenSaved := !rg.assignedTo.contains athlete.id,
                      athleteSaved := !athlete.regimens.contains rg.mongoId } := rfl

/-- C4: `assignRegimenToAthlete` raises Forbidden whenever the requesting
coach is not the regimen's `createdBy`; raises NotFound whenever the athlete
is not linked to the requesting coach; and performs no state change (both
documents unchanged, no saves) when the regimen is already assigned on both
sides. -/
theorem c4_assign_regimen :
    ∀ (r : Regimen) (athlete? : Option User) (cid : String),
      (r.createdBy ≠ cid →
        assignRegimenToAthlete (some r) athlete? cid = Except.error Err.forbidden) ∧
      (∀ u, r.createdBy = cid → athlete? = some u → u.role = Role.athlete →
        cid ∉ u.coaches →
        assignRegimenToAthlete (some r) athlete? cid = Except.error Err.notFound) ∧
      (∀ u, r.createdBy = cid → athlete? = some u → u.role = Role.athlete →
        cid ∈ u.coaches → u.id ∈ r.assignedTo → r.mongoId ∈ u.regimens →
        assignRegimenToAthlete (some r) athlete? cid =
          Except.ok { regimen := r, athlete := u,
                      regimenSaved := false, athleteSaved := false }) := by
  intro r athlete? cid
  refine ⟨?_, ?_, ?_⟩
  · intro hne
    rw [assignRegimen_some_eq, if_pos hne]
  · intro u hcb ha hrole hnot
    subst ha
    have hc : u.coaches.contains cid = false := by
      cases h : u.coaches.contains cid
      · rfl
      · exact absurd (List.mem_of_elem_eq_true h) hnot
    rw [assignRegimen_some_eq, if_neg (by simp [hcb])]
    have hbind : ((some u).bind fun v =>
        if v.role = Role.athlete && v.coaches.contains cid then some v
        else none) = none := by
      show (if u.role = Role.athlete && u.coaches.contains cid then some u
            else none) = none
      rw [hc, Bool.and_false, if_neg (by simp)]
    rw [hbind]
  · intro u hcb ha hrole hin hassigned hregimens
    subst ha
    have hc : u.coaches.contains cid = true := List.elem_eq_true_of_mem hin
    have hassigned' : r.assignedTo.contains u.id = true :=
      List.elem_eq_true_of_mem hassigned
    have hregimens' : u.regimens.contains r.mongoId = true :=
      List.elem_eq_true_of_mem hregimens
    rw [assignRegimen_some_eq, if_neg (by simp [hcb])]
    have hbind : ((some u).bind fun v =>
        if v.role = Role.athlete && v.coaches.contains cid then some v
        else none) = some u := by
      show (if u.role = Role.athlete && u.coaches.contains cid then some u
            else none) = some u
      rw [hc, hrole]
      simp
    rw [hbind]
    show (Except.ok
        { regimen := if r.assignedTo.contains u.id then r
                     else { r with assignedTo := r.assignedTo ++ [u.id] },
          athlete := if u.regimens.contains r.mongoId then u
                     else { u with regimens := u.regimens ++ [r.mongoId] },
          regimenSaved := !r.assignedTo.contains u.id,
          athleteSaved := !u.regimens.contains r.mongoId } :
        Except Err RegimenAssignResult) =
      Except.ok { regimen := r, athlete := u,
                  regimenSaved := false, athleteSaved := false }
    rw [if_pos hassigned', if_pos hregimens', hassigned', hregimens']
    rfl

/-- Closed instance of `c4_assign_regimen` exercising all three conjuncts:
a non-owner gets Forbidden, an unlinked athlete gets NotFound, and an
already-assigned pair is left unchanged with no saves. -/
theorem c4_assign_regimen_witness :
    (assignRegimenToAthlete
        (some { mongoId := "R1m", id := "R1u", createdBy := "c", assignedTo := ["a"] })
        (some { id := "a", role := Role.athlete, coachId := some "c",
                primaryCoachId := some "c", coaches := ["c"], regimens := ["R1m"],
                athletes := [] })
        "x" = Except.error Err.forbidden) ∧
    (assignRegimenToAthlete
        (some { mongoId := "R1m", id := "R1u", createdBy := "c", assignedTo := ["a"] })
        (some { id := "b", role := Role.athlete, coachId := none,
                primaryCoachId := none, coaches := [], regimens := [],
                athletes := [] })
        "c" = Except.error Err.notFound) ∧
    (assignRegimenToAthlete
        (some { mongoId := "R1m", id := "R1u", createdBy := "c", assignedTo := ["a"] })
        (some { id := "a", role := Role.athlete, coachId := some "c",
                primaryCoachId := some "c", coaches := ["c"], regimens := ["R1m"],
                athletes := [] })
        "c" = Except.ok
          { regimen := { mongoId := "R1m", id := "R1u", createdBy := "c",
                         assignedTo := ["a"] },
            athlete := { id := "a", role := Role.athlete, coachId := some "c",
                         primaryCoachId := some "c", coaches := ["c"],
                         regimens := ["R1m"], athletes := [] },
            regimenSaved := false, athleteSaved := false }) :=
  ⟨(c4_assign_regimen { mongoId := "R1m", id := "R1u", createdBy := "c", assignedTo := ["a"] }
      (some { id := "a", role := Role.athlete, coachId := some "c",
              primaryCoachId := some "c", coaches := ["c"], regimens := ["R1m"],
              athletes := [] }) "x").1 (by decide),
   (c4_assign_regimen { mongoId := "R1m", id := "R1u", createdBy := "c", assignedTo := ["a"] }
      (some { id := "b", role := Role.athlete, coachId := none,
              primaryCoachId := none, coaches := [], regimens := [],
              athletes := [] }) "c").2.1 _ (by decide) rfl (by decide) (by decide),
   (c4_assign_regimen { mongoId := "R1m", id := "R1u", createdBy := "c", assignedTo := ["a"] }
      (some { id := "a", role := Role.athlete, coachId := some "c",
              primaryCoachId := some "c", coaches := ["c"], regimens := ["R1m"],
              athletes := [] }) "c").2.2 _ (by decide) rfl (by decide) (by decide)
      (by decide) (by decide)⟩

/-! ## Claim C6 — orphaned-log purge (corrected) -/

/-- Membership in the orphaned-id set computed by `deleteOrphanedLogs`:
for a `regimenId` value actually referenced by some log, being orphaned is
exactly not matching any existing regimen's `_id`. -/
theorem orphaned_contains_eq (logs : List WorkoutLog) (regimens : List Regimen)
    {l : WorkoutLog} {rr : String} (hl : l ∈ logs) (hr : l.regimenId = some rr) :
    (orphanedIds logs regimens).contains rr
      = !(regimens.map fun r => r.mongoId).contains rr := by
  unfold orphanedIds
  have hvalid : rr ∈ (logs.map fun x => x.regimenId).dedup.filterMap fun x => x := by
    rw [List.mem_filterMap]
    refine ⟨some rr, ?_, rfl⟩
    rw [List.mem_dedup, List.mem_map]
    exact ⟨l, hl, hr⟩
  cases h : (regimens.map fun r => r.mongoId).contains rr with
  | false =>
    apply List.elem_eq_true_of_mem
    rw [List.mem_filter]
    exact ⟨hvalid, by rw [h]; rfl⟩
  | true =>
    cases h2 : (((logs.map fun x => x.regimenId).dedup.filterMap fun x => x).filter
        fun i => !(regimens.map fun r => r.mongoId).contains i).contains rr with
    | false => rfl
    | true =>
      exfalso
      have := List.mem_of_elem_eq_true h2
      rw [List.mem_filter, h] at this
      exact absurd this.2 (by simp)

/-- C6 (amended): `deleteOrphanedLogs` deletes exactly those WorkoutLogs whose
`regimenId` is present (non-null) and does not match any existing Regimen's
store id, returns the count of deleted logs, and leaves every other log —
including logs with a null `regimenId` — untouched. -/
theorem c6_orphan_purge_amended :
    ∀ (logs : List WorkoutLog) (regimens : List Regimen),
      (deleteOrphanedLogs logs regimens).1 =
        logs.filter (fun l => match l.regimenId with
          | none => true
          | some rr => (regimens.map fun r => r.mongoId).contains rr) ∧
      (deleteOrphanedLogs logs regimens).2 =
        (logs.filter fun l => match l.regimenId with
          | none => false
          | some rr => !(regimens.map fun r => r.mongoId).contains rr).length := by
  intro logs regimens
  unfold deleteOrphanedLogs
  split
  case isTrue horph =>
    constructor
    · show logs = _
      rw [eq_comm, List.filter_eq_self]
      intro l hl
      cases hr : l.regimenId with
      | none => rfl
      | some rr =>
        have := orphaned_contains_eq logs regimens hl hr
        rw [horph] at this
        cases h : (regimens.map fun r => r.mongoId).contains rr with
        | true => exact h
        | false =>
          rw [h] at this
          exact absurd this.symm (by simp [List.contains])
    · show (0 : Nat) = _
      rw [eq_comm]
      simp only [List.length_eq_zero]
      rw [List.filter_eq_nil_iff]
      intro l hl
      cases hr : l.regimenId with
      | none => simp [hr]
      | some rr =>
        have := orphaned_contains_eq logs regimens hl hr
        rw [horph] at this
        simp only [hr]
        rw [← this]
        simp [List.contains]
  case isFalse horph =>
    constructor
    · show logs.filter (fun l => !(match l.regimenId with
          | some rr => (orphanedIds logs regimens).contains rr
          | none => false)) = _
      apply List.filter_congr
      intro l hl
      cases hr : l.regimenId with
      | none => simp [hr]
      | some rr =>
        have := orphaned_contains_eq logs regimens hl hr
        simp only [hr]
        rw [this, Bool.not_not]
    · show (logs.filter fun l => match l.regimenId with
          | some rr => (orphanedIds logs regimens).contains rr
          | none => false).length = _
      congr 1
      apply List.filter_congr
      intro l hl
      cases hr : l.regimenId with
      | none => simp [hr]
      | some rr =>
        have := orphaned_contains_eq logs regimens hl hr
        simp only [hr]
        rw [this]

/-- C6 counterexample to the claim as stated: a log with a null `regimenId`
references no existing Regimen (there are no regimens at all), yet the purge
deletes nothing — it does not delete "exactly those logs whose regimenId does
not identify any currently existing Regimen". -/
theorem c6_orphan_purge_counterexample :
    deleteOrphanedLogs
        [{ athleteId := "a", regimenId := none, dayId := "d", sharedWith := [],
           completedAt := 0 }] [] ≠
      ([], 1) ∧
    deleteOrphanedLogs
        [{ athleteId := "a", regimenId := none, dayId := "d", sharedWith := [],
           completedAt := 0 }] [] =
      ([{ athleteId := "a", regimenId := none, dayId := "d", sharedWith := [],
          completedAt := 0 }], 0) := by
  constructor
  · decide
  · decide

/-! ## Claims C1–C3 — coach link/unlink invariants -/

/-- `assignCoach` on two found users with the right roles runs the document
mutation. -/
theorem assignCoach_some_eq (athlete coach : User)
    (ha : athlete.role = Role.athlete) (hc : coach.role = Role.coach) :
    assignCoach (some athlete) (some coach) =
      Except.ok (assignCoachDocs athlete coach) := by
  show (if athlete.role ≠ Role.athlete then Except.error Err.notFound
        else if coach.role ≠ Role.coach then Except.error Err.notFound
        else Except.ok (assignCoachDocs athlete coach)) = _
  rw [if_neg (by simp [ha]), if_neg (by simp [hc])]

/-- `removeCoach` on two found users with the right roles runs the document
mutation. -/
theorem removeCoach_some_eq (athlete coach : User)
    (ha : athlete.role = Role.athlete) (hc : coach.role = Role.coach) :
    removeCoach (some athlete) (some coach) =
      Except.ok (removeCoachDocs athlete coach) := by
  show (if athlete.role ≠ Role.athlete then Except.error Err.notFound
        else if coach.role ≠ Role.coach then Except.error Err.notFound
        else Except.ok (removeCoachDocs athlete coach)) = _
  rw [if_neg (by simp [ha]), if_neg (by simp [hc])]

/-- When the pair is fully linked — symmetric membership and both scalar
mirror fields set — `assignCoachDocs` changes nothing and saves nothing. -/
theorem assignCoachDocs_noop (athlete coach : User)
    (h1 : coach.id ∈ athlete.coaches) (h2 : athlete.id ∈ coach.athletes)
    (h3 : athlete.primaryCoachId.isSome) (h4 : athlete.coachId.isSome) :
    assignCoachDocs athlete coach =
      { athlete := athlete, coach := coach,
        athleteSaved := false, coachSaved := false } := by
  obtain ⟨p, hp⟩ := Option.isSome_iff_exists.mp h3
  obtain ⟨q, hq⟩ := Option.isSome_iff_exists.mp h4
  have hc : athlete.coaches.contains coach.id = true := List.elem_eq_true_of_mem h1
  have ha : coach.athletes.contains athlete.id = true := List.elem_eq_true_of_mem h2
  unfold assignCoachDocs
  rw [hc, ha, hp, hq]
  simp only [if_pos rfl, if_true, Option.isNone_some, Bool.not_true,
    Bool.or_self, Bool.or_false]
  rw [← hp, ← hq]

/-- Structural facts about the `assignCoachDocs` result: ids and roles are
unchanged, the link is present on both sides, and both scalar mirror fields
are set. -/
theorem assignCoachDocs_fields (athlete coach : User) :
    (assignCoachDocs athlete coach).athlete.id = athlete.id ∧
    (assignCoachDocs athlete coach).athlete.role = athlete.role ∧
    (assignCoachDocs athlete coach).coach.id = coach.id ∧
    (assignCoachDocs athlete coach).coach.role = coach.role ∧
    coach.id ∈ (assignCoachDocs athlete coach).athlete.coaches ∧
    athlete.id ∈ (assignCoachDocs athlete coach).coach.athletes ∧
    (assignCoachDocs athlete coach).athlete.primaryCoachId.isSome ∧
    (assignCoachDocs athlete coach).athlete.coachId.isSome := by
  unfold assignCoachDocs
  refine ⟨rfl, rfl, rfl, rfl, ?_, ?_, ?_, ?_⟩
  · by_cases h : athlete.coaches.contains coach.id
    · simp only [if_pos h]
      exact List.mem_of_elem_eq_true h
    · simp only [if_neg h]
      exact List.mem_append_right _ (List.mem_singleton.mpr rfl)
  · by_cases h : coach.athletes.contains athlete.id
    · simp only [if_pos h]
      exact List.mem_of_elem_eq_true h
    · simp only [if_neg h]
      exact List.mem_append_right _ (List.mem_singleton.mpr rfl)
  · cases hp : athlete.primaryCoachId <;> simp
  · cases hq : athlete.coachId <;> simp

/-- C2 (amended): when the pair is already linked per I1 and the athlete's
`primaryCoachId` and legacy `coachId` are both set, `linkCoachAthlete`
performs no writes and leaves both documents unchanged; and in every state,
calling it twice in a row yields the same final state as calling it once —
the second call writes nothing and changes nothing. -/
theorem c2_link_idempotent :
    ∀ (athlete coach : User),
      athlete.role = Role.athlete → coach.role = Role.coach →
      ((coach.id ∈ athlete.coaches → athlete.id ∈ coach.athletes →
          athlete.primaryCoachId.isSome → athlete.coachId.isSome →
          assignCoach (some athlete) (some coach) =
            Except.ok { athlete := athlete, coach := coach,
                        athleteSaved := false, coachSaved := false }) ∧
       (∀ res, assignCoach (some athlete) (some coach) = Except.ok res →
          assignCoach (some res.athlete) (some res.coach) =
            Except.ok { athlete := res.athlete, coach := res.coach,
                        athleteSaved := false, coachSaved := false })) := by
  intro athlete coach ha hc
  constructor
  · intro h1 h2 h3 h4
    rw [assignCoach_some_eq athlete coach ha hc,
      assignCoachDocs_noop athlete coach h1 h2 h3 h4]
  · intro res hres
    rw [assignCoach_some_eq athlete coach ha hc] at hres
    injection hres with hres
    obtain ⟨hid, hrole, hcid, hcrole, hmem1, hmem2, hsome1, hsome2⟩ :=
      assignCoachDocs_fields athlete coach
    rw [hres] at hid hrole hcid hcrole hmem1 hmem2 hsome1 hsome2
    rw [assignCoach_some_eq res.athlete res.coach (by rw [hrole]; exact ha)
      (by rw [hcrole]; exact hc)]
    rw [assignCoachDocs_noop res.athlete res.coach (by rw [hcid]; exact hmem1)
      (by rw [hid]; exact hmem2) hsome1 hsome2]

/-- C2 counterexample to the claim as stated: athlete `"a"` and coach `"c"`
are already linked per I1, yet `linkCoachAthlete` writes the athlete document
(it sets the unset `primaryCoachId` and legacy `coachId`), so the operation
is not write-free on every already-linked pair. -/
theorem c2_counterexample :
    invI1 athleteNoPrimary coachC ∧
    assignCoach (some athleteNoPrimary) (some coachC) =
      Except.ok { athlete := { id := "a", role := Role.athlete,
                               coachId := some "c", primaryCoachId := some "c",
                               coaches := ["c"], regimens := [], athletes := [] },
                  coach := coachC, athleteSaved := true, coachSaved := false } ∧
    ({ id := "a", role := Role.athlete, coachId := some "c",
       primaryCoachId := some "c", coaches := ["c"], regimens := [],
       athletes := [] } : User) ≠ athleteNoPrimary :=
  ⟨by decide, by rfl, by decide⟩

/-- Core of C1 on the document mutation: removing the athlete's primary coach
— with invariant I3 holding beforehand — leaves either a non-empty `coaches`
list whose first element is the new primary, or an empty list with both
scalar fields cleared. -/
theorem removeCoachDocs_primary (athlete coach : User)
    (hmem : coach.id ∈ athlete.coaches)
    (hprim : athlete.primaryCoachId = some coach.id)
    (h3 : invI3 athlete) :
    ((removeCoachDocs athlete coach).athlete.coaches ≠ [] →
        (removeCoachDocs athlete coach).athlete.primaryCoachId =
          (removeCoachDocs athlete coach).athlete.coaches.head? ∧
        ∃ p, (removeCoachDocs athlete coach).athlete.primaryCoachId = some p ∧
          p ∈ (removeCoachDocs athlete coach).athlete.coaches) ∧
    ((removeCoachDocs athlete coach).athlete.coaches = [] →
        (removeCoachDocs athlete coach).athlete.primaryCoachId = none ∧
        (removeCoachDocs athlete coach).athlete.coachId = none) := by
  have hne : athlete.coaches ≠ [] := List.ne_nil_of_mem hmem
  have hlt : (athlete.coaches.filter fun cId => cId ≠ coach.id).length <
      athlete.coaches.length := by
    rw [List.length_filter_lt_length_iff_exists]
    exact ⟨coach.id, hmem, by simp⟩
  have hcoachId : athlete.coachId = none ∨ athlete.coachId = some coach.id := by
    cases hq : athlete.coachId with
    | none => exact Or.inl rfl
    | some q =>
      right
      have := h3 q hq
      rw [hprim] at this
      injection this with this
      rw [this]
  unfold removeCoachDocs
  rw [if_pos hne, if_pos hlt, if_pos hprim]
  cases hnc : athlete.coaches.filter fun cId => cId ≠ coach.id with
  | nil =>
    simp only [List.head?_nil]
    have hc1 : (if athlete.coachId = some coach.id
        then (none : Option String) else athlete.coachId) = none := by
      rcases hcoachId with h | h
      · rw [if_neg (by rw [h]; exact fun hh => Option.noConfusion hh)]
        exact h
      · rw [if_pos h]
    rw [hc1, if_neg (fun hh => Option.noConfusion hh : ¬ ((none : Option String) = some coach.id))]
    exact ⟨fun h => absurd rfl h, fun _ => ⟨rfl, rfl⟩⟩
  | cons hd tl =>
    simp only [List.head?_cons]
    have hhd : hd ≠ coach.id := by
      have hmemf : hd ∈ athlete.coaches.filter fun cId => cId ≠ coach.id := by
        rw [hnc]; exact List.mem_cons_self _ _
      rw [List.mem_filter] at hmemf
      simpa using hmemf.2
    have hstep2 : ¬ ((if athlete.coachId = some coach.id
        then some hd else athlete.coachId) = some coach.id) := by
      rcases hcoachId with h | h
      · rw [if_neg (by rw [h]; exact fun hh => Option.noConfusion hh), h]
        exact fun hh => Option.noConfusion hh
      · rw [if_pos h]
        intro hh
        injection hh with hh
        exact hhd hh
    rw [if_neg hstep2]
    exact ⟨fun _ => ⟨rfl, hd, rfl, List.mem_cons_self _ _⟩,
           fun h => absurd h (by simp)⟩

/-- C1: when `unlinkCoachAthlete` removes a coach that is the athlete's
primary coach (the link being present and I3 holding beforehand), the
resulting athlete document has `primaryCoachId` equal to the first element of
the remaining `coaches` list — in particular a member of it — when that list
is non-empty, and has both `primaryCoachId` and legacy `coachId` unset when
it is empty. -/
theorem c1_remove_primary_coach :
    ∀ (athlete coach : User),
      athlete.role = Role.athlete → coach.role = Role.coach →
      coach.id ∈ athlete.coaches →
      athlete.primaryCoachId = some coach.id →
      invI3 athlete →
      ∀ res, removeCoach (some athlete) (some coach) = Except.ok res →
        ((res.athlete.coaches ≠ [] →
            res.athlete.primaryCoachId = res.athlete.coaches.head? ∧
            ∃ p, res.athlete.primaryCoachId = some p ∧
              p ∈ res.athlete.coaches) ∧
         (res.athlete.coaches = [] →
            res.athlete.primaryCoachId = none ∧ res.athlete.coachId = none)) := by
  intro athlete coach ha hc hmem hprim h3 res hres
  rw [removeCoach_some_eq athlete coach ha hc] at hres
  injection hres with hres
  rw [← hres]
  exact removeCoachDocs_primary athlete coach hmem hprim h3

/-- Closed instance of `c1_remove_primary_coach`: removing primary coach
`"c"` from `coaches = ["c", "d"]` promotes `"d"` (the head of the remaining
list). -/
theorem c1_remove_primary_coach_witness :
    (removedPrimaryResult.athlete.coaches ≠ [] →
        removedPrimaryResult.athlete.primaryCoachId =
          removedPrimaryResult.athlete.coaches.head? ∧
        ∃ p, removedPrimaryResult.athlete.primaryCoachId = some p ∧
          p ∈ removedPrimaryResult.athlete.coaches) ∧
    (removedPrimaryResult.athlete.coaches = [] →
        removedPrimaryResult.athlete.primaryCoachId = none ∧
        removedPrimaryResult.athlete.coachId = none) :=
  c1_remove_primary_coach athleteTwoCoaches coachCWithA (by decide) (by decide)
    (by decide) (by decide) (by decide) removedPrimaryResult (by rfl)

/-- `removeCoachDocs` preserves invariant I3 from any state satisfying I2 and
I3. -/
theorem removeCoachDocs_invI3 (athlete coach : User)
    (h2 : invI2 athlete) (h3 : invI3 athlete) :
    invI3 (removeCoachDocs athlete coach).athlete := by
  by_cases hEmpty : athlete.coaches = []
  · have hcn : athlete.coachId = none := (h2.2 hEmpty).2
    unfold removeCoachDocs
    rw [if_neg (fun h => h hEmpty)]
    simp only []
    rw [if_neg (by rw [hcn]; exact fun hh => Option.noConfusion hh)]
    exact h3
  · by_cases hmem : coach.id ∈ athlete.coaches
    · obtain ⟨p, hpmem, hp⟩ := h2.1 hEmpty
      by_cases hpc : p = coach.id
      · -- the removed coach was primary: reduce to the C1 core analysis
        subst hpc
        have hlt : (athlete.coaches.filter fun cId => cId ≠ coach.id).length <
            athlete.coaches.length := by
          rw [List.length_filter_lt_length_iff_exists]
          exact ⟨coach.id, hmem, by simp⟩
        have hcoachId : athlete.coachId = none ∨
            athlete.coachId = some coach.id := by
          cases hq : athlete.coachId with
          | none => exact Or.inl rfl
          | some q =>
            right
            have hq2 := h3 q hq
            rw [hp] at hq2
            injection hq2 with hq2
            rw [hq2]
        unfold removeCoachDocs
        rw [if_pos hEmpty, if_pos hlt, if_pos hp]
        cases hnc : athlete.coaches.filter fun cId => cId ≠ coach.id with
        | nil =>
          simp only [List.head?_nil]
          have hc1 : (if athlete.coachId = some coach.id
              then (none : Option String) else athlete.coachId) = none := by
            rcases hcoachId with h | h
            · rw [if_neg (by rw [h]; exact fun hh => Option.noConfusion hh)]
              exact h
            · rw [if_pos h]
          rw [hc1, if_neg (fun hh => Option.noConfusion hh :
            ¬ ((none : Option String) = some coach.id))]
          intro c hcc
          exact absurd hcc (by simp)
        | cons hd tl =>
          simp only [List.head?_cons]
          have hhd : hd ≠ coach.id := by
            have hmemf : hd ∈ athlete.coaches.filter fun cId => cId ≠ coach.id := by
              rw [hnc]; exact List.mem_cons_self _ _
            rw [List.mem_filter] at hmemf
            simpa using hmemf.2
          have hstep2 : ¬ ((if athlete.coachId = some coach.id
              then some hd else athlete.coachId) = some coach.id) := by
            rcases hcoachId with h | h
            · rw [if_neg (by rw [h]; exact fun hh => Option.noConfusion hh), h]
              exact fun hh => Option.noConfusion hh
            · rw [if_pos h]
              intro hh
              injection hh with hh
              exact hhd hh
          rw [if_neg hstep2]
          intro c hcc
          rcases hcoachId with h | h
          · rw [if_neg (by rw [h]; exact fun hh => Option.noConfusion hh), h] at hcc
            exact absurd hcc (by simp)
          · rw [if_pos h] at hcc
            exact hcc
      · -- a non-primary coach is removed: the scalar fields survive
        have hstep2 : ¬ (athlete.coachId = some coach.id) := by
          intro hcc
          have hpq := h3 coach.id hcc
          rw [hp] at hpq
          injection hpq with hpq
          exact hpc hpq
        have hlt : (athlete.coaches.filter fun cId => cId ≠ coach.id).length <
            athlete.coaches.length := by
          rw [List.length_filter_lt_length_iff_exists]
          exact ⟨coach.id, hmem, by simp⟩
        unfold removeCoachDocs
        rw [if_pos hEmpty, if_pos hlt,
          if_neg (show ¬ (athlete.primaryCoachId = some coach.id) by
            rw [hp]; intro hh; injection hh with hh; exact hpc hh)]
        simp only []
        rw [if_neg hstep2]
        rw [if_neg hstep2]
        intro c hcc
        exact h3 c hcc
    · -- the coach was not linked: nothing changes
      have hfil : athlete.coaches.filter (fun cId => cId ≠ coach.id) =
          athlete.coaches := by
        rw [List.filter_eq_self]
        intro x hx
        simp only [decide_eq_true_eq]
        intro hxe
        exact hmem (hxe ▸ hx)
      have hstep2 : ¬ (athlete.coachId = some coach.id) := by
        intro hcc
        have hpq := h3 coach.id hcc
        obtain ⟨p, hpmem, hp⟩ := h2.1 hEmpty
        rw [hp] at hpq
        injection hpq with hpq
        rw [hpq] at hpmem
        exact hmem hpmem
      unfold removeCoachDocs
      rw [if_pos hEmpty, hfil, if_neg (lt_irrefl _)]
      simp only []
      rw [if_neg hstep2]
      exact h3

/-- `assignCoachDocs` preserves invariant I3 from any state satisfying I3 in
which the legacy `coachId` is set whenever `primaryCoachId` is. -/
theorem assignCoachDocs_invI3 (athlete coach : User) (h3 : invI3 athlete)
    (hmirror : athlete.primaryCoachId.isSome → athlete.coachId.isSome) :
    invI3 (assignCoachDocs athlete coach).athlete := by
  unfold assignCoachDocs
  cases hp : athlete.primaryCoachId with
  | none =>
    have hcn : athlete.coachId = none := by
      cases hq : athlete.coachId with
      | none => rfl
      | some q =>
        have hq2 := h3 q hq
        rw [hp] at hq2
        cases hq2
    rw [hcn]
    intro c hcc
    have hcc2 : some coach.id = some c := hcc
    exact hcc2
  | some p =>
    have hqs : athlete.coachId.isSome := hmirror (by rw [hp]; rfl)
    obtain ⟨q, hqq⟩ := Option.isSome_iff_exists.mp hqs
    have hpq := h3 q hqq
    rw [hp] at hpq
    injection hpq with hpq
    rw [hqq]
    intro c hcc
    have hcc2 : some q = some c := hcc
    show some p = some c
    rw [hpq]
    exact hcc2

/-- C3 counterexample to the claim as stated: the initial state satisfies
I1–I3, yet `linkCoachAthlete` with a new coach `"c"` sets the unset legacy
`coachId` to `"c"` while `primaryCoachId` stays `"p"`, breaking I3. -/
theorem c3_counterexample :
    invI1 athleteLegacyUnset coachNew ∧ invI2 athleteLegacyUnset ∧
    invI3 athleteLegacyUnset ∧
    assignCoach (some athleteLegacyUnset) (some coachNew) =
      Except.ok { athlete := { id := "a", role := Role.athlete,
                               coachId := some "c", primaryCoachId := some "p",
                               coaches := ["p", "c"], regimens := [],
                               athletes := [] },
                  coach := { id := "c", role := Role.coach, coachId := none,
                             primaryCoachId := none, coaches := [],
                             regimens := [], athletes := ["a"] },
                  athleteSaved := true, coachSaved := true } ∧
    ¬ invI3 ({ id := "a", role := Role.athlete, coachId := some "c",
               primaryCoachId := some "p", coaches := ["p", "c"],
               regimens := [], athletes := [] } : User) :=
  ⟨by decide, by decide, by decide, by rfl, by decide⟩

/-- C3 (amended): starting from a state satisfying I1–I3, `removeCoach`
always preserves I3, and `assignCoach` preserves I3 provided the legacy
`coachId` is set whenever `primaryCoachId` is (the full legacy mirror). -/
theorem c3_i3_preservation :
    ∀ (athlete coach : User),
      athlete.role = Role.athlete → coach.role = Role.coach →
      invI1 athlete coach → invI2 athlete → invI3 athlete →
      ((∀ res, removeCoach (some athlete) (some coach) = Except.ok res →
          invI3 res.athlete) ∧
       ((athlete.primaryCoachId.isSome → athlete.coachId.isSome) →
        ∀ res, assignCoach (some athlete) (some coach) = Except.ok res →
          invI3 res.athlete)) := by
  intro athlete coach ha hc _ h2 h3
  constructor
  · intro res hres
    rw [removeCoach_some_eq athlete coach ha hc] at hres
    injection hres with hres
    rw [← hres]
    exact removeCoachDocs_invI3 athlete coach h2 h3
  · intro hmirror res hres
    rw [assignCoach_some_eq athlete coach ha hc] at hres
    injection hres with hres
    rw [← hres]
    exact assignCoachDocs_invI3 athlete coach h3 hmirror

/-- Closed instance of `c3_i3_preservation`: removing primary coach `"c"`
from `athleteTwoCoaches`, and re-linking an already fully linked pair,
both preserve I3. -/
theorem c3_i3_preservation_witness :
    invI3 removedPrimaryResult.athlete ∧
    invI3 ({ athlete := athleteTwoCoaches, coach := coachCWithA,
             athleteSaved := false, coachSaved := false } : LinkResult).athlete :=
  ⟨(c3_i3_preservation athleteTwoCoaches coachCWithA (by decide) (by decide)
      (by decide) (by decide) (by decide)).1 removedPrimaryResult (by rfl),
   (c3_i3_preservation athleteTwoCoaches coachCWithA (by decide) (by decide)
      (by decide) (by decide) (by decide)).2 (by decide)
      { athlete := athleteTwoCoaches, coach := coachCWithA,
        athleteSaved := false, coachSaved := false } (by rfl)⟩

/-- Closed instance of `c2_link_idempotent`: after linking athlete `"a"`
(which wrote `primaryCoachId`/`coachId`), linking again changes nothing and
writes nothing. -/
theorem c2_link_idempotent_witness :
    assignCoach
        (some { id := "a", role := Role.athlete, coachId := some "c",
                primaryCoachId := some "c", coaches := ["c"], regimens := [],
                athletes := [] })
        (some coachC) =
      Except.ok
        { athlete := { id := "a", role := Role.athlete, coachId := some "c",
                       primaryCoachId := some "c", coaches := ["c"],
                       regimens := [], athletes := [] },
          coach := coachC, athleteSaved := false, coachSaved := false } :=
  (c2_link_idempotent athleteNoPrimary coachC (by decide) (by decide)).2
    { athlete := { id := "a", role := Role.athlete, coachId := some "c",
                   primaryCoachId := some "c", coaches := ["c"],
                   regimens := [], athletes := [] },
      coach := coachC, athleteSaved := true, coachSaved := false } (by rfl)

/-! ## Claims C7–C8 — achievement evaluator -/

/-- `findFirst` search characterization: it returns `i` exactly when `i` is
the first index in `[s, s + fuel)` satisfying `p`. -/
theorem findFirst_eq_some_iff {p : Nat → Bool} {s m i : Nat} :
    findFirst p s m = some i ↔
      s ≤ i ∧ i < s + m ∧ p i = true ∧ ∀ j, s ≤ j → j < i → p j = false := by
  induction m generalizing s with
  | zero =>
    simp only [findFirst]
    constructor
    · intro h; cases h
    · rintro ⟨h1, h2, -, -⟩
      omega
  | succ m ih =>
    simp only [findFirst]
    by_cases hp : p s
    · rw [if_pos hp]
      constructor
      · intro h
        injection h with h
        subst h
        exact ⟨le_refl _, by omega, hp,
          fun j hj1 hj2 => absurd hj1 (by omega)⟩
      · rintro ⟨h1, h2, h3, h4⟩
        have hi : i = s := by
          by_contra hne
          have hlt : s < i := lt_of_le_of_ne h1 (Ne.symm hne)
          have := h4 s (le_refl s) hlt
          rw [hp] at this
          cases this
        rw [hi]
    · rw [if_neg hp]
      have hps : p s = false := by
        cases h : p s
        · rfl
        · exact absurd h hp
      rw [ih]
      constructor
      · rintro ⟨h1, h2, h3, h4⟩
        refine ⟨by omega, by omega, h3, fun j hj1 hj2 => ?_⟩
        rcases Nat.eq_or_lt_of_le hj1 with heq | hlt
        · rw [← heq]
          exact hps
        · exact h4 j hlt hj2
      · rintro ⟨h1, h2, h3, h4⟩
        have hsi : s ≠ i := by
          rintro rfl
          rw [h3] at hps
          cases hps
        exact ⟨by omega, by omega, h3, fun j hj1 hj2 => h4 j (by omega) hj2⟩

/-- `findFirst` returns nothing exactly when no index in range satisfies `p`. -/
theorem findFirst_eq_none_iff {p : Nat → Bool} {s m : Nat} :
    findFirst p s m = none ↔ ∀ j, s ≤ j → j < s + m → p j = false := by
  induction m generalizing s with
  | zero =>
    simp only [findFirst]
    constructor
    · intro _ j hj1 hj2
      omega
    · intro _
      trivial
  | succ m ih =>
    simp only [findFirst]
    by_cases hp : p s
    · rw [if_pos hp]
      constructor
      · intro h; cases h
      · intro h
        have := h s (le_refl s) (by omega)
        rw [this] at hp
        cases hp
    · rw [if_neg hp]
      have hps : p s = false := by
        cases h : p s
        · rfl
        · exact absurd h hp
      rw [ih]
      constructor
      · intro h j hj1 hj2
        rcases Nat.eq_or_lt_of_le hj1 with heq | hlt
        · rw [← heq]; exact hps
        · exact h j hlt (by omega)
      · intro h j hj1 hj2
        exact h j (by omega) (by omega)

/-- The `consistent-week` scan result characterized: it returns the window
end of the first qualifying anchor index (indices range over
`0 … length - 3`). -/
theorem consistentWeekDate_eq_some_iff (dates : List Nat) (d : Nat) :
    consistentWeekDate dates = some d ↔
      ∃ i, i < dates.length - 2 ∧
        3 ≤ uniqueDaysInWindow dates (dates.getD i 0) ∧
        (∀ j, j < i → ¬ 3 ≤ uniqueDaysInWindow dates (dates.getD j 0)) ∧
        d = windowEnd (dates.getD i 0) := by
  unfold consistentWeekDate
  rw [Option.map_eq_some']
  constructor
  · rintro ⟨i, hi, hfi⟩
    rw [findFirst_eq_some_iff] at hi
    obtain ⟨-, h2, h3, h4⟩ := hi
    refine ⟨i, by omega, by simpa using h3, ?_, hfi.symm⟩
    intro j hj
    have := h4 j (Nat.zero_le j) hj
    simpa using this
  · rintro ⟨i, h1, h2, h3, h4⟩
    refine ⟨i, ?_, h4.symm⟩
    rw [findFirst_eq_some_iff]
    refine ⟨Nat.zero_le i, by omega, by simpa using h2, ?_⟩
    intro j _ hj
    simpa using h3 j hj

/-- The `consistent-week` scan never runs with fewer than three workouts. -/
theorem consistentWeekDate_short (dates : List Nat) (h : dates.length < 3) :
    consistentWeekDate dates = none := by
  unfold consistentWeekDate
  have hm : dates.length - 2 = 0 := by omega
  rw [hm]
  rfl

/-- Membership in an `if`-guarded singleton. -/
theorem mem_ite_singleton {α : Type} {c : Prop} [Decidable c] (x e : α) :
    (e ∈ if c then [x] else []) ↔ c ∧ e = x := by
  split
  case isTrue h => simp [h]
  case isFalse h => simp [h]

/-- Membership characterization of `calculateUserAchievements`: an entry is in
the output exactly when its badge's earning condition holds and it carries the
badge's achieved date. -/
theorem mem_calculateUserAchievements (logs : List Nat) (e : EarnedAchievement) :
    e ∈ calculateUserAchievements logs ↔
      (1 ≤ logs.length ∧ e = mkEarned firstWorkoutDef (logs.getD 0 0)) ∨
      (10 ≤ logs.length ∧ e = mkEarned milestone10Def (logs.getD 9 0)) ∨
      (25 ≤ logs.length ∧ e = mkEarned milestone25Def (logs.getD 24 0)) ∨
      (∃ d, consistentWeekDate logs = some d ∧ e = mkEarned consistentWeekDef d) := by
  unfold calculateUserAchievements
  by_cases h0 : logs.length = 0
  · rw [if_pos h0]
    have hnil : logs = [] := List.length_eq_zero.mp h0
    subst hnil
    constructor
    · intro h
      cases h
    · rintro (⟨h, -⟩ | ⟨h, -⟩ | ⟨h, -⟩ | ⟨d, hd, -⟩)
      · cases h
      · cases h
      · cases h
      · rw [consistentWeekDate_short [] (by decide)] at hd
        cases hd
  · rw [if_neg h0]
    rw [List.mem_append, List.mem_append, List.mem_append,
      mem_ite_singleton, mem_ite_singleton, mem_ite_singleton]
    cases hcw : consistentWeekDate logs with
    | none =>
      constructor
      · rintro (((h | h) | h) | h)
        · exact Or.inl h
        · exact Or.inr (Or.inl h)
        · exact Or.inr (Or.inr (Or.inl h))
        · cases h
      · rintro (h | h | h | ⟨d, hd, -⟩)
        · exact Or.inl (Or.inl (Or.inl h))
        · exact Or.inl (Or.inl (Or.inr h))
        · exact Or.inl (Or.inr h)
        · cases hd
    | some d0 =>
      constructor
      · rintro (((h | h) | h) | h)
        · exact Or.inl h
        · exact Or.inr (Or.inl h)
        · exact Or.inr (Or.inr (Or.inl h))
        · exact Or.inr (Or.inr (Or.inr ⟨d0, rfl, by simpa using h⟩))
      · rintro (h | h | h | ⟨d, hd, he⟩)
        · exact Or.inl (Or.inl (Or.inl h))
        · exact Or.inl (Or.inl (Or.inr h))
        · exact Or.inl (Or.inr h)
        · injection hd with hd
          subst hd
          exact Or.inr (by simpa using he)

/-- A qualifying `consistent-week` scan result yields a qualifying 7-day
window anchored at some workout's timestamp. -/
theorem consistentWeekDate_some_exists (dates : List Nat) {d : Nat}
    (h : consistentWeekDate dates = some d) :
    ∃ t ∈ dates, 3 ≤ uniqueDaysInWindow dates t := by
  rw [consistentWeekDate_eq_some_iff] at h
  obtain ⟨i, h1, h2, -, -⟩ := h
  have hi : i < dates.length := by omega
  refine ⟨dates.getD i 0, ?_, h2⟩
  rw [List.getD_eq_getElem dates 0 hi]
  exact List.getElem_mem hi

/-- The id of a built entry is the catalog entry's id. -/
theorem mkEarned_id_eq {dd : AchievementDef} {x : Nat} {sid : String}
    (h : (mkEarned dd x).id = sid) : dd.id = sid := h

/-- Entries built from catalog entries with different ids differ. -/
theorem mkEarned_ne_of_id {d1 d2 : AchievementDef} {x y : Nat}
    (h : d1.id ≠ d2.id) : mkEarned d1 x ≠ mkEarned d2 y := by
  intro he
  exact h (congrArg EarnedAchievement.id he)

/-- C8: over an ascending sequence of completion timestamps, the evaluator
returns an empty result for zero workouts; contains `first-workout` iff at
least 1 workout, dated at the 1st workout; `milestone-10` iff at least 10,
dated at the 10th; `milestone-25` iff at least 25, dated at the 25th; and
every entry in the result is an earned badge. -/
theorem c8_milestones (logs : List Nat) (_hs : List.Sorted (· ≤ ·) logs) :
    (logs.length = 0 → calculateUserAchievements logs = []) ∧
    ((mkEarned firstWorkoutDef (logs.getD 0 0) ∈ calculateUserAchievements logs ↔
        1 ≤ logs.length) ∧
      ∀ e ∈ calculateUserAchievements logs, e.id = "first-workout" →
        e = mkEarned firstWorkoutDef (logs.getD 0 0)) ∧
    ((mkEarned milestone10Def (logs.getD 9 0) ∈ calculateUserAchievements logs ↔
        10 ≤ logs.length) ∧
      ∀ e ∈ calculateUserAchievements logs, e.id = "milestone-10" →
        e = mkEarned milestone10Def (logs.getD 9 0)) ∧
    ((mkEarned milestone25Def (logs.getD 24 0) ∈ calculateUserAchievements logs ↔
        25 ≤ logs.length) ∧
      ∀ e ∈ calculateUserAchievements logs, e.id = "milestone-25" →
        e = mkEarned milestone25Def (logs.getD 24 0)) ∧
    (∀ e ∈ calculateUserAchievements logs,
      (e.id = "first-workout" ∧ 1 ≤ logs.length) ∨
      (e.id = "milestone-10" ∧ 10 ≤ logs.length) ∨
      (e.id = "milestone-25" ∧ 25 ≤ logs.length) ∨
      (e.id = "consistent-week" ∧ ∃ t ∈ logs, 3 ≤ uniqueDaysInWindow logs t)) := by
  refine ⟨?_, ⟨?_, ?_⟩, ⟨?_, ?_⟩, ⟨?_, ?_⟩, ?_⟩
  · intro h0
    unfold calculateUserAchievements
    rw [if_pos h0]
  · rw [mem_calculateUserAchievements]
    constructor
    · rintro (⟨h, -⟩ | ⟨-, he⟩ | ⟨-, he⟩ | ⟨d, -, he⟩)
      · exact h
      · exact absurd he (mkEarned_ne_of_id (by decide))
      · exact absurd he (mkEarned_ne_of_id (by decide))
      · exact absurd he (mkEarned_ne_of_id (by decide))
    · intro h
      exact Or.inl ⟨h, rfl⟩
  · intro e he hid
    rcases (mem_calculateUserAchievements logs e).mp he with
      ⟨-, rfl⟩ | ⟨-, rfl⟩ | ⟨-, rfl⟩ | ⟨d, -, rfl⟩
    · rfl
    · exact absurd (mkEarned_id_eq hid) (by decide)
    · exact absurd (mkEarned_id_eq hid) (by decide)
    · exact absurd (mkEarned_id_eq hid) (by decide)
  · rw [mem_calculateUserAchievements]
    constructor
    · rintro (⟨-, he⟩ | ⟨h, -⟩ | ⟨-, he⟩ | ⟨d, -, he⟩)
      · exact absurd he (mkEarned_ne_of_id (by decide))
      · exact h
      · exact absurd he (mkEarned_ne_of_id (by decide))
      · exact absurd he (mkEarned_ne_of_id (by decide))
    · intro h
      exact Or.inr (Or.inl ⟨h, rfl⟩)
  · intro e he hid
    rcases (mem_calculateUserAchievements logs e).mp he with
      ⟨-, rfl⟩ | ⟨-, rfl⟩ | ⟨-, rfl⟩ | ⟨d, -, rfl⟩
    · exact absurd (mkEarned_id_eq hid) (by decide)
    · rfl
    · exact absurd (mkEarned_id_eq hid) (by decide)
    · exact absurd (mkEarned_id_eq hid) (by decide)
  · rw [mem_calculateUserAchievements]
    constructor
    · rintro (⟨-, he⟩ | ⟨-, he⟩ | ⟨h, -⟩ | ⟨d, -, he⟩)
      · exact absurd he (mkEarned_ne_of_id (by decide))
      · exact absurd he (mkEarned_ne_of_id (by decide))
      · exact h
      · exact absurd he (mkEarned_ne_of_id (by decide))
    · intro h
      exact Or.inr (Or.inr (Or.inl ⟨h, rfl⟩))
  · intro e he hid
    rcases (mem_calculateUserAchievements logs e).mp he with
      ⟨-, rfl⟩ | ⟨-, rfl⟩ | ⟨-, rfl⟩ | ⟨d, -, rfl⟩
    · exact absurd (mkEarned_id_eq hid) (by decide)
    · exact absurd (mkEarned_id_eq hid) (by decide)
    · rfl
    · exact absurd (mkEarned_id_eq hid) (by decide)
  · intro e he
    rcases (mem_calculateUserAchievements logs e).mp he with
      ⟨h, rfl⟩ | ⟨h, rfl⟩ | ⟨h, rfl⟩ | ⟨d, hd, rfl⟩
    · exact Or.inl ⟨rfl, h⟩
    · exact Or.inr (Or.inl ⟨rfl, h⟩)
    · exact Or.inr (Or.inr (Or.inl ⟨rfl, h⟩))
    · exact Or.inr (Or.inr (Or.inr ⟨rfl, consistentWeekDate_some_exists logs hd⟩))

/-- Closed instance of `c8_milestones` at the one-workout sequence `[0]`. -/
theorem c8_milestones_witness :
    (([0] : List Nat).length = 0 → calculateUserAchievements [0] = []) ∧
    ((mkEarned firstWorkoutDef (([0] : List Nat).getD 0 0) ∈
          calculateUserAchievements [0] ↔ 1 ≤ ([0] : List Nat).length) ∧
      ∀ e ∈ calculateUserAchievements [0], e.id = "first-workout" →
        e = mkEarned firstWorkoutDef (([0] : List Nat).getD 0 0)) ∧
    ((mkEarned milestone10Def (([0] : List Nat).getD 9 0) ∈
          calculateUserAchievements [0] ↔ 10 ≤ ([0] : List Nat).length) ∧
      ∀ e ∈ calculateUserAchievements [0], e.id = "milestone-10" →
        e = mkEarned milestone10Def (([0] : List Nat).getD 9 0)) ∧
    ((mkEarned milestone25Def (([0] : List Nat).getD 24 0) ∈
          calculateUserAchievements [0] ↔ 25 ≤ ([0] : List Nat).length) ∧
      ∀ e ∈ calculateUserAchievements [0], e.id = "milestone-25" →
        e = mkEarned milestone25Def (([0] : List Nat).getD 24 0)) ∧
    (∀ e ∈ calculateUserAchievements [0],
      (e.id = "first-workout" ∧ 1 ≤ ([0] : List Nat).length) ∨
      (e.id = "milestone-10" ∧ 10 ≤ ([0] : List Nat).length) ∨
      (e.id = "milestone-25" ∧ 25 ≤ ([0] : List Nat).length) ∨
      (e.id = "consistent-week" ∧ ∃ t ∈ ([0] : List Nat),
        3 ≤ uniqueDaysInWindow [0] t)) :=
  c8_milestones [0] (by decide)

/-- In an ascending list, a workout anchoring a qualifying 7-day window
(3 or more distinct calendar days) must have at least two strictly later
distinct workout values after it, so its index is below `length - 2` — the
source's loop bound `i <= length - 3` therefore misses no qualifying
anchor. -/
theorem qualifying_anchor_lt (dates : List Nat) (hs : List.Sorted (· ≤ ·) dates)
    {i : Nat} (hi : i < dates.length)
    (hq : 3 ≤ uniqueDaysInWindow dates (dates.getD i 0)) :
    i + 2 < dates.length := by
  unfold uniqueDaysInWindow at hq
  set t := dates.getD i 0 with htdef
  set L := dates.filter (fun dd => decide (t ≤ dd) && decide (dd ≤ windowEnd t))
    with hLdef
  have hnd : ((L.map calDay).dedup).Nodup := List.nodup_dedup _
  have hget : ∀ (k : Nat) (hk : k < ((L.map calDay).dedup).length),
      ∃ v, v ∈ L ∧ calDay v = ((L.map calDay).dedup).get ⟨k, hk⟩ := by
    intro k hk
    have hmem : ((L.map calDay).dedup).get ⟨k, hk⟩ ∈ (L.map calDay).dedup :=
      List.get_mem _ _ hk
    rw [List.mem_dedup] at hmem
    exact List.mem_map.mp hmem
  obtain ⟨v0, hv0L, hv0⟩ := hget 0 (by omega)
  obtain ⟨v1, hv1L, hv1⟩ := hget 1 (by omega)
  obtain ⟨v2, hv2L, hv2⟩ := hget 2 (by omega)
  have hfin : ∀ (k1 k2 : Nat) (hk1 : k1 < ((L.map calDay).dedup).length)
      (hk2 : k2 < ((L.map calDay).dedup).length), k1 ≠ k2 →
      ((L.map calDay).dedup).get ⟨k1, hk1⟩ ≠ ((L.map calDay).dedup).get ⟨k2, hk2⟩ := by
    intro k1 k2 hk1 hk2 hne he
    exact hne (congrArg Fin.val (hnd.get_inj_iff.mp he))
  have hne01 : v0 ≠ v1 := by
    intro he
    exact hfin 0 1 (by omega) (by omega) (by omega) (by rw [← hv0, ← hv1, he])
  have hne02 : v0 ≠ v2 := by
    intro he
    exact hfin 0 2 (by omega) (by omega) (by omega) (by rw [← hv0, ← hv2, he])
  have hne12 : v1 ≠ v2 := by
    intro he
    exact hfin 1 2 (by omega) (by omega) (by omega) (by rw [← hv1, ← hv2, he])
  have hwin : ∀ v ∈ L, v ∈ dates ∧ t ≤ v := by
    intro v hv
    rw [hLdef, List.mem_filter] at hv
    refine ⟨hv.1, ?_⟩
    have := hv.2
    rw [Bool.and_eq_true, decide_eq_true_eq, decide_eq_true_eq] at this
    exact this.1
  have h0w := hwin v0 hv0L
  have h1w := hwin v1 hv1L
  have h2w := hwin v2 hv2L
  obtain ⟨a, b, hab, hta, htb, haD, hbD⟩ :
      ∃ a b, a ≠ b ∧ t < a ∧ t < b ∧ a ∈ dates ∧ b ∈ dates := by
    by_cases he0 : v0 = t
    · have ht1 : t < v1 :=
        lt_of_le_of_ne h1w.2 (fun h => hne01 (he0.trans h))
      have ht2 : t < v2 :=
        lt_of_le_of_ne h2w.2 (fun h => hne02 (he0.trans h))
      exact ⟨v1, v2, hne12, ht1, ht2, h1w.1, h2w.1⟩
    · have ht0 : t < v0 := lt_of_le_of_ne h0w.2 (fun h => he0 h.symm)
      by_cases he1 : v1 = t
      · have ht2 : t < v2 :=
          lt_of_le_of_ne h2w.2 (fun h => hne12 (he1.trans h))
        exact ⟨v0, v2, hne02, ht0, ht2, h0w.1, h2w.1⟩
      · have ht1 : t < v1 := lt_of_le_of_ne h1w.2 (fun h => he1 h.symm)
        exact ⟨v0, v1, hne01, ht0, ht1, h0w.1, h1w.1⟩
  obtain ⟨ja, hja⟩ := List.mem_iff_get.mp haD
  obtain ⟨jb, hjb⟩ := List.mem_iff_get.mp hbD
  have hti : dates.get ⟨i, hi⟩ = t := by
    rw [htdef, List.getD_eq_getElem dates 0 hi, List.get_eq_getElem]
  have hia : i < ja.val := by
    by_contra hle
    push_neg at hle
    have hmono := hs.rel_get_of_le (show ja ≤ ⟨i, hi⟩ from hle)
    rw [hja, hti] at hmono
    omega
  have hib : i < jb.val := by
    by_contra hle
    push_neg at hle
    have hmono := hs.rel_get_of_le (show jb ≤ ⟨i, hi⟩ from hle)
    rw [hjb, hti] at hmono
    omega
  have hjab : ja.val ≠ jb.val := by
    intro he
    apply hab
    rw [← hja, ← hjb]
    congr 1
    exact Fin.ext he
  have hna := ja.isLt
  have hnb := jb.isLt
  omega

/-- Every qualifying anchor value in an ascending list is anchored at some
index within the scan's range `[0, length - 2)`. -/
theorem exists_qualifying_index (dates : List Nat) (hs : List.Sorted (· ≤ ·) dates)
    {t : Nat} (htmem : t ∈ dates) (hq : 3 ≤ uniqueDaysInWindow dates t) :
    ∃ j, j < dates.length - 2 ∧ dates.getD j 0 = t := by
  obtain ⟨jt, hjt⟩ := List.mem_iff_get.mp htmem
  have hgd : dates.getD jt.val 0 = t := by
    rw [List.getD_eq_getElem dates 0 jt.isLt, ← List.get_eq_getElem]
    exact hjt
  have hq2 : 3 ≤ uniqueDaysInWindow dates (dates.getD jt.val 0) := by
    rw [hgd]; exact hq
  have := qualifying_anchor_lt dates hs jt.isLt hq2
  exact ⟨jt.val, by omega, hgd⟩

/-- Comparisons against the Invalid Date are always false. -/
theorem jsDateLe_invalid_right (a : JsDate) :
    jsDateLe a JsDate.invalid = false := by
  cases a <;> rfl

/-- C7 (code bug): the program's `consistent-week` scan runs over
`parseISO(String(completedAt))` values, which are Invalid Dates for every
log, so no workout ever falls inside any window, the scan never finds a
qualifying anchor for any input — while the intended window test of the
claim does qualify at workouts on days 0, 2 and 4. The badge can never be
earned by the program. -/
theorem c7_consistent_week_unreachable :
    (∀ (logs : List Nat) (start : JsDate),
        uniqueDaysInWindowJs (workoutDates logs) start = 0) ∧
    (∀ logs : List Nat, consistentWeekDateJs (workoutDates logs) = none) ∧
    (3 ≤ uniqueDaysInWindow [0, 172800000, 345600000] 0 ∧
      consistentWeekDateJs (workoutDates [0, 172800000, 345600000]) = none) := by
  have hall : ∀ (logs : List Nat) (start : JsDate),
      uniqueDaysInWindowJs (workoutDates logs) start = 0 := by
    intro logs start
    unfold uniqueDaysInWindowJs
    have hfil : (workoutDates logs).filter
        (fun d => jsDateLe start d && jsDateLe d (jsWindowEnd start)) = [] := by
      rw [List.filter_eq_nil_iff]
      intro d hd
      unfold workoutDates at hd
      rw [List.mem_map] at hd
      obtain ⟨t, -, rfl⟩ := hd
      show ¬ ((jsDateLe start JsDate.invalid &&
        jsDateLe JsDate.invalid (jsWindowEnd start)) = true)
      rw [jsDateLe_invalid_right, Bool.false_and]
      exact fun h => Bool.noConfusion h
    rw [hfil]
    rfl
  have hnone : ∀ logs : List Nat,
      consistentWeekDateJs (workoutDates logs) = none := by
    intro logs
    unfold consistentWeekDateJs
    rw [Option.map_eq_none']
    rw [findFirst_eq_none_iff]
    intro j _ _
    rw [decide_eq_false_iff_not, hall]
    omega
  exact ⟨hall, hnone, by decide, hnone _⟩

/-! ## Claim C9 — pace calculator -/

/-- The loop bound of `generateStandardSegments`: iteration `k` (producing
`(k+1) * 50`) runs exactly when that multiple is still strictly below the
total distance. -/
theorem lt_segCount_iff (total : ℚ) (k : ℕ) :
    k < segCount total ↔ ((k : ℚ) + 1) * 50 < total := by
  unfold segCount
  rw [Int.lt_toNat]
  have hstep : ((k : ℤ) < ⌈total / 50⌉ - 1) ↔ ((k : ℤ) + 1 < ⌈total / 50⌉) := by
    omega
  rw [hstep, Int.lt_ceil]
  push_cast
  rw [lt_div_iff₀ (by norm_num : (0 : ℚ) < 50)]

/-- Membership in the generated split points: the positive multiples of 50
strictly below the total distance, plus the total distance itself. -/
theorem mem_generateStandardSegments (total d : ℚ) :
    d ∈ generateStandardSegments total ↔
      (∃ m : ℕ, 1 ≤ m ∧ d = 50 * (m : ℚ) ∧ d < total) ∨ d = total := by
  unfold generateStandardSegments
  rw [List.mem_append, List.mem_singleton]
  constructor
  · rintro (h | h)
    · rw [List.mem_map] at h
      obtain ⟨k, hk, rfl⟩ := h
      rw [List.mem_range] at hk
      left
      refine ⟨k + 1, by omega, by push_cast; ring, ?_⟩
      exact (lt_segCount_iff total k).mp hk
    · exact Or.inr h
  · rintro (⟨m, hm1, rfl, hmlt⟩ | rfl)
    · left
      rw [List.mem_map]
      cases m with
      | zero => omega
      | succ k =>
        refine ⟨k, ?_, by push_cast; ring⟩
        rw [List.mem_range, lt_segCount_iff total k]
        have : ((k : ℚ) + 1) * 50 = 50 * ((k + 1 : ℕ) : ℚ) := by
          push_cast; ring
        rw [this]
        exact hmlt
    · right
      rfl

/-- The generated split points are strictly increasing (hence deduplicated
and sorted ascending). -/
theorem generateStandardSegments_sorted (total : ℚ) :
    (generateStandardSegments total).Pairwise (· < ·) := by
  unfold generateStandardSegments
  rw [List.pairwise_append]
  refine ⟨?_, List.pairwise_singleton _ _, ?_⟩
  · rw [List.pairwise_map]
    refine (List.pairwise_lt_range (segCount total)).imp ?_
    intro a b hab
    have hq : (a : ℚ) < (b : ℚ) := by exact_mod_cast hab
    nlinarith
  · intro x hx y hy
    rw [List.mem_singleton] at hy
    subst hy
    rw [List.mem_map] at hx
    obtain ⟨k, hk, rfl⟩ := hx
    rw [List.mem_range] at hk
    exact (lt_segCount_iff _ k).mp hk

/-- `parseTimeToSeconds` on the literal `"10.00"`: the string path parses the
bare-seconds decimal and the non-negativity guard passes. -/
theorem parseTime_example :
    parseTimeToSeconds (TimeInput.str "10.00") = Except.ok 10 := by
  show (if ((10 : ℕ) : ℚ) + ((0 : ℕ) : ℚ) / (10 : ℚ) ^ 2 < 0 then
          (Except.error Err.invalidInput : Except Err ℚ)
        else pure (((10 : ℕ) : ℚ) + ((0 : ℕ) : ℚ) / (10 : ℚ) ^ 2)) =
      Except.ok 10
  rw [if_neg (by push_cast; norm_num)]
  rw [except_pure]
  congr 1
  push_cast
  norm_num

/-- On valid inputs `calculatePace` succeeds and returns one row per
generated segment, timed at `distance / trainingPace` where
`trainingPace = (total / targetSeconds) * (effort / 100)`. -/
theorem calculatePace_ok (total : ℚ) (ti : TimeInput) (eff t : ℚ)
    (hd : 0 < total) (he1 : 0 < eff) (he2 : eff ≤ 100)
    (hp : parseTimeToSeconds ti = Except.ok t) (ht : 0 < t) :
    calculatePace total ti eff = Except.ok
      ((generateStandardSegments total).map fun d =>
        (d, formatSecondsToTime (d / ((total / t) * (eff / 100))))) := by
  have hd' : ¬ (total ≤ 0) := not_le.mpr hd
  have he' : ¬ (eff ≤ 0 ∨ 100 < eff) := by
    push_neg
    exact ⟨he1, he2⟩
  have ht' : ¬ (t ≤ 0) := not_le.mpr ht
  have hpace : 0 < total / t * (eff / 100) := by positivity
  have hpace' : ¬ (total / t * (eff / 100) ≤ 0) := not_le.mpr hpace
  unfold calculatePace
  rw [if_neg hd', if_neg he', hp]
  rw [except_bind_ok]
  rw [if_neg ht', if_neg hpace']
  simp only [except_pure, except_bind_ok]

/-- The concrete run `calculatePace 100 "10.00" 100`: training pace equals
target pace at 100% effort, so the 50-distance split is timed `"5.00"` and
the full distance `"10.00"`. -/
theorem calculatePace_example :
    calculatePace 100 (TimeInput.str "10.00") 100 =
      Except.ok [(50, "5.00"), (100, "10.00")] := by
  rw [calculatePace_ok 100 (TimeInput.str "10.00") 100 10 (by norm_num)
    (by norm_num) (by norm_num) parseTime_example (by norm_num)]
  have hseg : generateStandardSegments 100 = [50, 100] := by
    unfold generateStandardSegments segCount
    have hceil : Int.ceil ((100 : ℚ) / 50) = 2 := by norm_num
    rw [hceil]
    show [(((0 : ℕ) : ℚ) + 1) * 50] ++ [(100 : ℚ)] = [50, 100]
    norm_num
  rw [hseg]
  have hf1 : formatSecondsToTime ((50 : ℚ) / (100 / 10 * (100 / 100))) = "5.00" := by
    have h : ((50 : ℚ) / (100 / 10 * (100 / 100))) = 5 := by norm_num
    rw [h]
    unfold formatSecondsToTime
    rw [if_neg (by norm_num)]
    have h2 : ⌊(5 : ℚ) * 100 + 1 / 2⌋ = 500 := by norm_num
    rw [h2]
    rfl
  have hf2 : formatSecondsToTime ((100 : ℚ) / (100 / 10 * (100 / 100))) = "10.00" := by
    have h : ((100 : ℚ) / (100 / 10 * (100 / 100))) = 10 := by norm_num
    rw [h]
    unfold formatSecondsToTime
    rw [if_neg (by norm_num)]
    have h2 : ⌊(10 : ℚ) * 100 + 1 / 2⌋ = 1000 := by norm_num
    rw [h2]
    rfl
  rw [List.map_cons, List.map_cons, List.map_nil, hf1, hf2]

/-- C9: on every valid input (positive distance, effort in (0, 100], positive
parsed target time) `calculatePace` returns exactly the split points that are
positive multiples of 50 strictly below the total distance plus the total
distance itself, strictly increasing (deduplicated, sorted), each timed at
`d / trainingPace` formatted to two decimals with
`trainingPace = (totalDistance / targetSeconds) * (effort / 100)`; in
particular `calculatePace 100 "10.00" 100` yields time `"5.00"` at distance
50 and `"10.00"` at distance 100. -/
theorem c9_calculate_pace (totalDistance : ℚ) (timeInput : TimeInput)
    (effortPercentage t : ℚ)
    (hd : 0 < totalDistance) (he1 : 0 < effortPercentage)
    (he2 : effortPercentage ≤ 100)
    (hp : parseTimeToSeconds timeInput = Except.ok t) (ht : 0 < t) :
    ∃ rows,
      calculatePace totalDistance timeInput effortPercentage = Except.ok rows ∧
      (∀ d s, (d, s) ∈ rows →
        s = formatSecondsToTime
          (d / ((totalDistance / t) * (effortPercentage / 100)))) ∧
      (∀ d : ℚ, (∃ s, (d, s) ∈ rows) ↔
        ((∃ m : ℕ, 1 ≤ m ∧ d = 50 * (m : ℚ) ∧ d < totalDistance) ∨
          d = totalDistance)) ∧
      (rows.map Prod.fst).Pairwise (· < ·) ∧
      calculatePace 100 (TimeInput.str "10.00") 100 =
        Except.ok [(50, "5.00"), (100, "10.00")] := by
  refine ⟨_, calculatePace_ok totalDistance timeInput effortPercentage t
    hd he1 he2 hp ht, ?_, ?_, ?_, ?_⟩
  · intro d s hmem
    rw [List.mem_map] at hmem
    obtain ⟨d0, hd0, heq⟩ := hmem
    rw [Prod.mk.injEq] at heq
    rw [← heq.2, heq.1]
  · intro d
    constructor
    · rintro ⟨s, hmem⟩
      rw [List.mem_map] at hmem
      obtain ⟨d0, hd0, heq⟩ := hmem
      rw [Prod.mk.injEq] at heq
      rw [← heq.1]
      exact (mem_generateStandardSegments _ _).mp hd0
    · intro h
      exact ⟨_, List.mem_map.mpr
        ⟨d, (mem_generateStandardSegments _ _).mpr h, rfl⟩⟩
  · rw [List.map_map]
    have hcomp : (Prod.fst ∘ fun d : ℚ =>
        (d, formatSecondsToTime
          (d / (totalDistance / t * (effortPercentage / 100))))) =
        fun d : ℚ => d := rfl
    rw [hcomp, List.map_id']
    exact generateStandardSegments_sorted totalDistance
  · exact calculatePace_example

/-- Closed instance of `c9_calculate_pace` at
`calculatePace 100 "10.00" 100`. -/
theorem c9_calculate_pace_witness :
    ∃ rows,
      calculatePace 100 (TimeInput.str "10.00") 100 = Except.ok rows ∧
      (∀ d s, (d, s) ∈ rows →
        s = formatSecondsToTime (d / ((100 / 10) * (100 / 100)))) ∧
      (∀ d : ℚ, (∃ s, (d, s) ∈ rows) ↔
        ((∃ m : ℕ, 1 ≤ m ∧ d = 50 * (m : ℚ) ∧ d < 100) ∨ d = (100 : ℚ))) ∧
      (rows.map Prod.fst).Pairwise (· < ·) ∧
      calculatePace 100 (TimeInput.str "10.00") 100 =
        Except.ok [(50, "5.00"), (100, "10.00")] :=
  c9_calculate_pace 100 (TimeInput.str "10.00") 100 10
    (by norm_num) (by norm_num) (by norm_num) parseTime_example (by norm_num)

end CoachShare
